import Mathlib

/-!
Verification development for the listlet repository's atomic sub-document
mutation engine.

Embedded components (shallow embedding, translated from the JavaScript
source):

* `navigateToPath` — the dot-separated path resolver of the Azure Function
  HTTP handler (function `navigateToPath`).
* `postMutate` / `deleteMutate` / `patchMutate` and the surrounding
  `postRequest` / `deleteRequest` / `patchRequest` — the POST (atomic
  append), DELETE (atomic remove-by-id) and PATCH (atomic single-field
  update) branches of the handler `module.exports`, including the
  ETag-conditional upload and the outer catch block.
* `appendItemLoop` / `deleteItemLoop` — the client-side retry loops
  `appendItem` and `deleteItem` of `client/shared/api.js`.

Modelling conventions:

* JSON documents are the inductive `Json`.  JavaScript numbers are modelled
  as integers (the documents of this repository store only integral
  numbers); `undefined` is modelled as `Option.none` wherever the source
  can produce it; a thrown JavaScript `TypeError` is the `Except.error`
  case of `JsErr`.
* Property access follows JavaScript semantics on each variant: access on
  `null` throws, access on numbers and booleans yields `undefined`, strings
  expose their characters at digit positions and their `length`, arrays
  expose their elements at digit positions and their `length`.  Prototype
  members of objects and arrays are functions (not JSON data) and are
  modelled as absent from reads; the `in` operator used by the PATCH
  handler does see prototype member names, so those names are modelled
  explicitly there.
* `String.prototype.split('.')` and `parseInt` on all-digit strings are
  embedded as the executable `jsSplitDot` and `parseNat`.
-/

/-- A JSON value: the document model of the store.  Numbers are modelled as
integers. -/
inductive Json where
  | null : Json
  | bool (b : Bool) : Json
  | num (n : Int) : Json
  | str (s : String) : Json
  | arr (elems : List Json) : Json
  | obj (fields : List (String × Json)) : Json

namespace Json

mutual
def decEq : (a b : Json) → Decidable (a = b)
  | .null, .null => isTrue rfl
  | .null, .bool _ => isFalse (fun h => Json.noConfusion h)
  | .null, .num _ => isFalse (fun h => Json.noConfusion h)
  | .null, .str _ => isFalse (fun h => Json.noConfusion h)
  | .null, .arr _ => isFalse (fun h => Json.noConfusion h)
  | .null, .obj _ => isFalse (fun h => Json.noConfusion h)
  | .bool _, .null => isFalse (fun h => Json.noConfusion h)
  | .bool a, .bool b =>
    match Bool.decEq a b with
    | isTrue h => isTrue (by rw [h])
    | isFalse h => isFalse (fun hh => h (Json.bool.inj hh))
  | .bool _, .num _ => isFalse (fun h => Json.noConfusion h)
  | .bool _, .str _ => isFalse (fun h => Json.noConfusion h)
  | .bool _, .arr _ => isFalse (fun h => Json.noConfusion h)
  | .bool _, .obj _ => isFalse (fun h => Json.noConfusion h)
  | .num _, .null => isFalse (fun h => Json.noConfusion h)
  | .num _, .bool _ => isFalse (fun h => Json.noConfusion h)
  | .num a, .num b =>
    match Int.decEq a b with
    | isTrue h => isTrue (by rw [h])
    | isFalse h => isFalse (fun hh => h (Json.num.inj hh))
  | .num _, .str _ => isFalse (fun h => Json.noConfusion h)
  | .num _, .arr _ => isFalse (fun h => Json.noConfusion h)
  | .num _, .obj _ => isFalse (fun h => Json.noConfusion h)
  | .str _, .null => isFalse (fun h => Json.noConfusion h)
  | .str _, .bool _ => isFalse (fun h => Json.noConfusion h)
  | .str _, .num _ => isFalse (fun h => Json.noConfusion h)
  | .str a, .str b =>
    match String.decEq a b with
    | isTrue h => isTrue (by rw [h])
    | isFalse h => isFalse (fun hh => h (Json.str.inj hh))
  | .str _, .arr _ => isFalse (fun h => Json.noConfusion h)
  | .str _, .obj _ => isFalse (fun h => Json.noConfusion h)
  | .arr _, .null => isFalse (fun h => Json.noConfusion h)
  | .arr _, .bool _ => isFalse (fun h => Json.noConfusion h)
  | .arr _, .num _ => isFalse (fun h => Json.noConfusion h)
  | .arr _, .str _ => isFalse (fun h => Json.noConfusion h)
  | .arr as, .arr bs =>
    match decEqList as bs with
    | isTrue h => isTrue (by rw [h])
    | isFalse h => isFalse (fun hh => h (Json.arr.inj hh))
  | .arr _, .obj _ => isFalse (fun h => Json.noConfusion h)
  | .obj _, .null => isFalse (fun h => Json.noConfusion h)
  | .obj _, .bool _ => isFalse (fun h => Json.noConfusion h)
  | .obj _, .num _ => isFalse (fun h => Json.noConfusion h)
  | .obj _, .str _ => isFalse (fun h => Json.noConfusion h)
  | .obj _, .arr _ => isFalse (fun h => Json.noConfusion h)
  | .obj as, .obj bs =>
    match decEqFields as bs with
    | isTrue h => isTrue (by rw [h])
    | isFalse h => isFalse (fun hh => h (Json.obj.inj hh))
def decEqList : (a b : List Json) → Decidable (a = b)
  | [], [] => isTrue rfl
  | [], _ :: _ => isFalse (fun h => List.noConfusion h)
  | _ :: _, [] => isFalse (fun h => List.noConfusion h)
  | a :: as, b :: bs =>
    match decEq a b, decEqList as bs with
    | isTrue h1, isTrue h2 => isTrue (by rw [h1, h2])
    | isFalse h1, _ => isFalse (fun h => h1 (List.cons.inj h).1)
    | _, isFalse h2 => isFalse (fun h => h2 (List.cons.inj h).2)
def decEqFields : (a b : List (String × Json)) → Decidable (a = b)
  | [], [] => isTrue rfl
  | [], _ :: _ => isFalse (fun h => List.noConfusion h)
  | _ :: _, [] => isFalse (fun h => List.noConfusion h)
  | (k1, v1) :: as, (k2, v2) :: bs =>
    match String.decEq k1 k2, decEq v1 v2, decEqFields as bs with
    | isTrue hk, isTrue hv, isTrue ht => isTrue (by rw [hk, hv, ht])
    | isFalse hk, _, _ =>
      isFalse (fun h => hk (congrArg Prod.fst (List.cons.inj h).1))
    | _, isFalse hv, _ =>
      isFalse (fun h => hv (congrArg Prod.snd (List.cons.inj h).1))
    | _, _, isFalse ht => isFalse (fun h => ht (List.cons.inj h).2)
end

instance : DecidableEq Json := Json.decEq

/-- JavaScript truthiness of a JSON value: `null`, `false`, `0` and the
empty string are falsy; objects and arrays are always truthy. -/
def truthy : Json → Bool
  | .null => false
  | .bool b => b
  | .num n => n != 0
  | .str s => s != ""
  | .arr _ => true
  | .obj _ => true

/-- Is this value a JSON object (a plain JavaScript object)? -/
def isObj : Json → Bool
  | .obj _ => true
  | _ => false

/-- Is this value a JSON array? -/
def isArr : Json → Bool
  | .arr _ => true
  | _ => false

end Json

/-- A thrown JavaScript runtime `TypeError` (property access on `null`, the
`in` operator on a primitive, and similar).  Such an error carries no
`statusCode`, so the handler's outer catch maps it to HTTP 500. -/
inductive JsErr where
  | typeError : JsErr
  deriving DecidableEq

instance {ε α : Type} [DecidableEq ε] [DecidableEq α] : DecidableEq (Except ε α) :=
  fun a b =>
    match a, b with
    | .ok x, .ok y =>
      match decEq x y with
      | isTrue h => isTrue (by rw [h])
      | isFalse h => isFalse (fun hh => h (Except.ok.inj hh))
    | .error x, .error y =>
      match decEq x y with
      | isTrue h => isTrue (by rw [h])
      | isFalse h => isFalse (fun hh => h (Except.error.inj hh))
    | .ok _, .error _ => isFalse (fun h => Except.noConfusion h)
    | .error _, .ok _ => isFalse (fun h => Except.noConfusion h)

/-- Embedding of `path.split('.')`: JavaScript string split on a single
dot.  `''.split('.')` is `['']`, `'a.'.split('.')` is `['a','']`. -/
def splitDotAux : List Char → List Char → List String
  | [], acc => [String.mk acc.reverse]
  | x :: xs, acc =>
    if x = '.' then String.mk acc.reverse :: splitDotAux xs []
    else splitDotAux xs (x :: acc)

def jsSplitDot (s : String) : List String := splitDotAux s.data []

/-- The regex test `^\d+$` of the handler: a non-empty string consisting
solely of ASCII digits. -/
def isDigits (s : String) : Bool := s.data ≠ [] && s.data.all Char.isDigit

/-- `parseInt` restricted to the all-digit strings on which the handler
applies it. -/
def parseNat (s : String) : Nat :=
  s.data.foldl (fun a c => a * 10 + (c.toNat - '0'.toNat)) 0

/-- The object-property key denoted by a path segment: an all-digit segment
is passed through `parseInt`, and JavaScript then coerces the number back
to its decimal string when the receiver is an object (`o[parseInt('07')]`
reads `o['7']`). -/
def segKey (seg : String) : String :=
  if isDigits seg then (parseNat seg).repr else seg

/-- Own-property read on an object literal (first binding of the key). -/
def objGet : List (String × Json) → String → Option Json
  | [], _ => none
  | (k, v) :: rest, key => if k = key then some v else objGet rest key

/-- Own-property assignment on an object literal: overwrite the existing
binding in place, or append a new binding at the end (JavaScript property
insertion order). -/
def objSet : List (String × Json) → String → Json → List (String × Json)
  | [], key, v => [(key, v)]
  | (k, w) :: rest, key, v =>
    if k = key then (k, v) :: rest else (k, w) :: objSet rest key v

/-- One step of the resolver's `reduce`: the JavaScript property read
`curr[part]` (after the handler's `^\d+$` test chooses `parseInt(part)` or
`part` as the key).  Follows JavaScript semantics per variant; `none` is
`undefined`. -/
def getProp (j : Json) (seg : String) : Except JsErr (Option Json) :=
  match j with
  | .null => .error .typeError
  | .obj fs => .ok (objGet fs (segKey seg))
  | .arr l =>
    .ok (if isDigits seg then l.get? (parseNat seg)
         else if seg = "length" then some (.num l.length)
         else none)
  | .str s =>
    .ok (if isDigits seg then
           (s.data.get? (parseNat seg)).map (fun c => .str (String.mk [c]))
         else if seg = "length" then some (.num s.length)
         else none)
  | .num _ => .ok none
  | .bool _ => .ok none

/-- The resolver's `reduce` over the split path: once the accumulator is
`undefined` the guard `if (curr === undefined) return undefined` keeps it
`undefined` for the remaining segments; otherwise each segment performs one
property read (which throws on a `null` accumulator). -/
def navigateSegs : Option Json → List String → Except JsErr (Option Json)
  | curr, [] => .ok curr
  | none, _ :: rest => navigateSegs none rest
  | some j, seg :: rest => do navigateSegs (← getProp j seg) rest

/-- `navigateToPath(obj, path)`: split the path on `.` and reduce. -/
def navigateToPath (root : Json) (path : String) : Except JsErr (Option Json) :=
  navigateSegs (some root) (jsSplitDot path)

/-- Functional rendering of the handler's in-place mutation of a navigated
subtree: rebuild the document with the subtree at `segs` replaced.  The
handler only mutates subtrees it has successfully navigated to (objects or
arrays reached through object fields and array indices), so the fall-through
cases leave the document unchanged. -/
def replaceAtPath (curr : Json) (segs : List String) (repl : Json) : Json :=
  match segs, curr with
  | [], _ => repl
  | seg :: rest, .obj fs =>
    match objGet fs (segKey seg) with
    | some child => .obj (objSet fs (segKey seg) (replaceAtPath child rest repl))
    | none => .obj fs
  | seg :: rest, .arr l =>
    if isDigits seg then
      match l.get? (parseNat seg) with
      | some child => .arr (l.set (parseNat seg) (replaceAtPath child rest repl))
      | none => .arr l
    else .arr l
  | _, j => j

def joinComma : List String → String
  | [] => ""
  | [s] => s
  | s :: rest => s ++ "," ++ joinComma rest

mutual
/-- String coercion of a JSON value as performed by the JavaScript `+`
operator (`String(x)`). -/
def jsToStr : Json → String
  | .null => "null"
  | .bool b => cond b "true" "false"
  | .num n => n.repr
  | .str s => s
  | .arr l => joinComma (jsToStrElems l)
  | .obj _ => "[object Object]"
/-- Element renderings used by JavaScript string coercion of arrays
(`Array.prototype.toString` joins element strings with commas; `null`
elements render as the empty string). -/
def jsToStrElems : List Json → List String
  | [] => []
  | .null :: rest => "" :: jsToStrElems rest
  | x :: rest => jsToStr x :: jsToStrElems rest
end

/-- The JavaScript expression `x + 1` for the week-number computation:
numeric addition on numbers, string concatenation after coercion
otherwise. -/
def jsAddOne : Json → Json
  | .num n => .num (n + 1)
  | .str s => .str (s ++ "1")
  | .bool b => .num (cond b 2 1)
  | .null => .num 1
  | .arr l => .str (joinComma (jsToStrElems l) ++ "1")
  | .obj _ => .str "[object Object]1"

/-- `a || b` where `a` may be `undefined`. -/
def jsOr (a : Option Json) (b : Json) : Json :=
  match a with
  | some x => if x.truthy then x else b
  | none => b

/-- The assignment `value.weekNumber = x`: sets the field on an object; on
an array it creates a non-index property that `JSON.stringify` drops, so
observably the array value is unchanged. -/
def setWeekNumber (v : Json) (x : Json) : Json :=
  match v with
  | .obj fs => .obj (objSet fs "weekNumber" x)
  | j => j

/-- Server-side week number calculation of the POST branch: when appending
an object to the path `weeks`, a non-empty sequence assigns
`(lastWeek.weekNumber || 1) + 1` and an empty sequence assigns
`value.weekNumber || 1`.  The read `lastWeek.weekNumber` throws when the
last element is `null`. -/
def adjustWeeks (path : String) (target : List Json) (value : Json) : Except JsErr Json :=
  if path = "weeks" && value.truthy && (value.isObj || value.isArr) then
    match target.getLast? with
    | some lastWeek => do
        let wn ← getProp lastWeek "weekNumber"
        pure (setWeekNumber value (jsAddOne (jsOr wn (.num 1))))
    | none => do
        let cur ← getProp value "weekNumber"
        pure (setWeekNumber value (jsOr cur (.num 1)))
  else pure value

/-- `path.split('.')`: only strings carry a `split` method; calling it on
any other truthy value throws. -/
def jsSplit : Json → Except JsErr (List String)
  | .str s => .ok (jsSplitDot s)
  | _ => .error .typeError

/-- The underlying string of the `path` body field, for the strict
comparison `path === 'weeks'` (false for every non-string). -/
def strVal : Json → String
  | .str s => s
  | _ => ""

/-- Result of the pure read-resolve-mutate stage of a handler branch,
before the conditional upload: either an early rejection (status and error
body) or the fully mutated document ready to upload. -/
inductive MutateOut where
  | reject (status : Nat) (err : String)
  | mutated (newDoc : Json)
  deriving DecidableEq

/-- POST branch (atomic append), read-and-mutate stage.  `path` and
`value` are the destructured request-body fields; an absent `value` is
`none`, and an absent `path` is modelled by any falsy value (both produce
the same 400). -/
def postMutate (doc : Json) (path : Json) (value : Option Json) : Except JsErr MutateOut :=
  match value with
  | none => pure (.reject 400 "Missing path or value")
  | some v =>
    if !path.truthy then pure (.reject 400 "Missing path or value")
    else do
      let segs ← jsSplit path
      let target ← navigateSegs (some doc) segs
      match target with
      | some (.arr l) => do
          let v2 ← adjustWeeks (strVal path) l v
          pure (.mutated (replaceAtPath doc segs (.arr (l ++ [v2]))))
      | _ => pure (.reject 400 "Path must point to array")

/-- `===` between two JSON values: primitive comparison; two separately
parsed objects or arrays are distinct references and never strictly
equal. -/
def jsStrictEq : Json → Json → Bool
  | .null, .null => true
  | .bool a, .bool b => a == b
  | .num a, .num b => a == b
  | .str a, .str b => a == b
  | _, _ => false

/-- `target.findIndex(item => item.id === id)` starting at position `i`:
the property read `item.id` throws on a `null` element; an element without
an `id` is never strictly equal to the (defined, truthy) requested id. -/
def findIndexByIdAux : List Json → Json → Nat → Except JsErr (Option Nat)
  | [], _, _ => .ok none
  | item :: rest, id, i => do
    let pid ← getProp item "id"
    match pid with
    | some x =>
      if jsStrictEq x id then pure (some i) else findIndexByIdAux rest id (i + 1)
    | none => findIndexByIdAux rest id (i + 1)

/-- DELETE branch (atomic remove by id), read-and-mutate stage.  An absent
`id` is modelled by any falsy value. -/
def deleteMutate (doc : Json) (path : Json) (id : Json) : Except JsErr MutateOut :=
  if !path.truthy || !id.truthy then pure (.reject 400 "Missing path or id")
  else do
    let segs ← jsSplit path
    let target ← navigateSegs (some doc) segs
    match target with
    | some (.arr l) => do
        let idx ← findIndexByIdAux l id 0
        match idx with
        | none => pure (.reject 404 "Item not found")
        | some i => pure (.mutated (replaceAtPath doc segs (.arr (l.eraseIdx i))))
    | _ => pure (.reject 400 "Path must point to array")

/-- The PATCH handler's key: `/^\d+$/.test(fieldName) ? parseInt(fieldName)
: fieldName`. -/
inductive JsKey where
  | idx (n : Nat)
  | name (s : String)
  deriving DecidableEq

def jsKeyStr : JsKey → String
  | .idx n => n.repr
  | .name s => s

/-- Property names inherited from `Object.prototype`, visible to the `in`
operator on every plain object. -/
def objectProtoKeys : List String :=
  ["constructor", "hasOwnProperty", "isPrototypeOf", "propertyIsEnumerable",
   "toLocaleString", "toString", "valueOf", "__proto__",
   "__defineGetter__", "__defineSetter__", "__lookupGetter__", "__lookupSetter__"]

/-- Method names inherited from `Array.prototype`, visible to the `in`
operator on every array. -/
def arrayProtoKeys : List String :=
  ["at", "concat", "copyWithin", "entries", "every", "fill", "filter",
   "find", "findIndex", "findLast", "findLastIndex", "flat", "flatMap",
   "forEach", "includes", "indexOf", "join", "keys", "lastIndexOf", "map",
   "pop", "push", "reduce", "reduceRight", "reverse", "shift", "slice",
   "some", "sort", "splice", "toLocaleString", "toReversed", "toSorted",
   "toSpliced", "toString", "unshift", "values", "with"]

/-- The `key in parent` test of the PATCH handler: sees own properties and
inherited prototype members; throws a `TypeError` when the right operand is
a primitive. -/
def jsIn (key : JsKey) (parent : Json) : Except JsErr Bool :=
  match parent with
  | .obj fs =>
    .ok ((objGet fs (jsKeyStr key)).isSome || objectProtoKeys.contains (jsKeyStr key))
  | .arr l =>
    match key with
    | .idx n => .ok (decide (n < l.length))
    | .name s => .ok (s = "length" || arrayProtoKeys.contains s || objectProtoKeys.contains s)
  | _ => .error .typeError

/-- `arr.length = m`: truncate or extend; extension holes become `null`
under `JSON.stringify`. -/
def resizeArr (l : List Json) (m : Nat) : List Json :=
  if m ≤ l.length then l.take m else l ++ List.replicate (m - l.length) .null

/-- The assignment `parent[key] = value` of the PATCH handler, in
sloppy-mode JavaScript: objects set the named field; arrays set the index
(index writes past the end leave holes that `JSON.stringify` renders as
`null`), `length` writes resize the array (invalid lengths raise a
`RangeError`, modelled as a runtime error; the repository never patches an
array length), and other array property names are non-index properties
that `JSON.stringify` drops; assignment to a primitive is silently
ignored. -/
def jsSetKey (parent : Json) (key : JsKey) (v : Json) : Except JsErr Json :=
  match parent, key with
  | .obj fs, k => .ok (.obj (objSet fs (jsKeyStr k) v))
  | .arr l, .idx n =>
    .ok (.arr (if n < l.length then l.set n v
               else l ++ List.replicate (n - l.length) .null ++ [v]))
  | .arr l, .name s =>
    if s = "length" then
      match v with
      | .num m => if 0 ≤ m then .ok (.arr (resizeArr l m.toNat)) else .error .typeError
      | _ => .error .typeError
    else .ok (.arr l)
  | j, _ => .ok j

/-- `pathParts.join('.')`. -/
def joinDot : List String → String
  | [] => ""
  | [s] => s
  | s :: rest => s ++ "." ++ joinDot rest

/-- PATCH branch (atomic single-field update), read-and-mutate stage:
strip the final segment, resolve the parent (the document itself for a
single-segment path), reject an `undefined` or `null` parent, require the
key to exist for nested paths, then assign. -/
def patchMutate (doc : Json) (path : Json) (value : Option Json) : Except JsErr MutateOut :=
  match value with
  | none => pure (.reject 400 "Missing path or value")
  | some v =>
    if !path.truthy then pure (.reject 400 "Missing path or value")
    else do
      let parts ← jsSplit path
      let fieldName := parts.getLastD ""
      let parentParts := parts.dropLast
      let parentPath := joinDot parentParts
      let parent ← if parentPath = "" then pure (some doc)
                   else navigateToPath doc parentPath
      match parent with
      | none => pure (.reject 400 "Invalid path")
      | some .null => pure (.reject 400 "Invalid path")
      | some par => do
        let key := if isDigits fieldName then JsKey.idx (parseNat fieldName)
                   else JsKey.name fieldName
        let keyExists ← if parentPath = "" then pure true else jsIn key par
        if !keyExists then pure (.reject 400 "Invalid path")
        else do
          let newPar ← jsSetKey par key v
          let newDoc := if parentPath = "" then newPar
                        else replaceAtPath doc (jsSplitDot parentPath) newPar
          pure (.mutated newDoc)

/-- An HTTP response of the handler together with what, if anything, it
uploaded to blob storage. -/
structure HandlerRes where
  status : Nat
  error : Option String
  success : Bool
  data : Option Json
  written : Option Json
  uploads : Nat
  deriving DecidableEq

/-- The conditional-upload step shared by POST/DELETE/PATCH, plus the outer
catch block.  `readVer` is the ETag obtained by the download of this
request; `storeVer` is the version the store holds at the moment of the
upload.  The upload succeeds exactly when they match (`ifMatch`); otherwise
storage answers 412 and the handler maps it to 409 "Conflict, please
retry".  A thrown JavaScript error has no `statusCode === 404`, so the
catch returns 500 with the error message. -/
def finishRequest (m : Except JsErr MutateOut) (readVer storeVer : Nat) : HandlerRes :=
  match m with
  | .error _ =>
    { status := 500, error := some "TypeError", success := false,
      data := none, written := none, uploads := 0 }
  | .ok (.reject st msg) =>
    { status := st, error := some msg, success := false,
      data := none, written := none, uploads := 0 }
  | .ok (.mutated d) =>
    if readVer = storeVer then
      { status := 200, error := none, success := true,
        data := some d, written := some d, uploads := 1 }
    else
      { status := 409, error := some "Conflict, please retry", success := false,
        data := none, written := none, uploads := 1 }

/-- The full POST request path: download (yielding `doc` and `readVer`),
mutate, conditional upload against `storeVer`. -/
def postRequest (doc : Json) (readVer storeVer : Nat) (path : Json)
    (value : Option Json) : HandlerRes :=
  finishRequest (postMutate doc path value) readVer storeVer

/-- The full DELETE request path. -/
def deleteRequest (doc : Json) (readVer storeVer : Nat) (path : Json)
    (id : Json) : HandlerRes :=
  finishRequest (deleteMutate doc path id) readVer storeVer

/-- The full PATCH request path. -/
def patchRequest (doc : Json) (readVer storeVer : Nat) (path : Json)
    (value : Option Json) : HandlerRes :=
  finishRequest (patchMutate doc path value) readVer storeVer

/-- One HTTP response as seen by the client retry loops: status code and
the `data` field of a success body. -/
structure HttpResp where
  status : Nat
  data : Json
  deriving DecidableEq

/-- `response.ok`: status in the 200-299 range. -/
def HttpResp.ok (r : HttpResp) : Bool :=
  decide (200 ≤ r.status) && decide (r.status < 300)

/-- Outcome of a client retry loop: resolved with the full document from
`result.data`, threw on a non-ok non-409 response, or threw `Max retries
exceeded`. -/
inductive ClientRes where
  | data (d : Json)
  | httpFail
  | exhausted
  deriving DecidableEq

/-- Observable behaviour of one client retry-loop run: its outcome, the
backoff waits it performed in order (milliseconds), the number of
conditional atomic requests it issued, and whether it ever fell back to an
unconditional full-document PUT. -/
structure ClientOut where
  res : ClientRes
  delays : List Nat
  requests : Nat
  fellBack : Bool
  deriving DecidableEq

/-- The retry loop of `appendItem`: `for (let i = 0; i < maxRetries; i++)`
issue the atomic POST; on 409 wait `100 * (i + 1)` and continue; on another
non-ok response throw; on success resolve with `result.data`.  Falling out
of the loop throws `Max retries exceeded`.  `respond i` is the response the
server gives to the i-th issued request (each iteration re-runs the whole
read-mutate-conditional-write cycle server-side). -/
def appendItemAux (respond : Nat → HttpResp) : Nat → Nat → ClientOut
  | _, 0 => { res := .exhausted, delays := [], requests := 0, fellBack := false }
  | i, r + 1 =>
    let resp := respond i
    if resp.status = 409 then
      let o := appendItemAux respond (i + 1) r
      { o with delays := 100 * (i + 1) :: o.delays, requests := o.requests + 1 }
    else if resp.ok then
      { res := .data resp.data, delays := [], requests := 1, fellBack := false }
    else
      { res := .httpFail, delays := [], requests := 1, fellBack := false }

def appendItemLoop (respond : Nat → HttpResp) (maxRetries : Nat) : ClientOut :=
  appendItemAux respond 0 maxRetries

/-- The retry loop of `deleteItem`, identical in structure to
`appendItem`'s but issuing the atomic DELETE. -/
def deleteItemAux (respond : Nat → HttpResp) : Nat → Nat → ClientOut
  | _, 0 => { res := .exhausted, delays := [], requests := 0, fellBack := false }
  | i, r + 1 =>
    let resp := respond i
    if resp.status = 409 then
      let o := deleteItemAux respond (i + 1) r
      { o with delays := 100 * (i + 1) :: o.delays, requests := o.requests + 1 }
    else if resp.ok then
      { res := .data resp.data, delays := [], requests := 1, fellBack := false }
    else
      { res := .httpFail, delays := [], requests := 1, fellBack := false }

def deleteItemLoop (respond : Nat → HttpResp) (maxRetries : Nat) : ClientOut :=
  deleteItemAux respond 0 maxRetries

/-- The property names of the object literal returned by `createApi` in
`client/shared/api.js`, in source order. -/
def createApiMethods : List String :=
  ["isMock", "listName", "fetchTasks", "saveTasks", "appendItem", "deleteItem"]

/-- State of the blob store: current document and version token (ETag). -/
structure Store where
  doc : Json
  ver : Nat
  deriving DecidableEq

/-- Progress of one client append operation running its retry loop: about
to issue a request (whose server side will download the document), holding
a downloaded snapshot with its ETag (the server side is about to attempt
the conditional upload), or finished. -/
inductive OpPhase where
  | toRead
  | toWrite (snap : Json) (etag : Nat)
  | doneOk
  | doneFail
  deriving DecidableEq

structure OpState where
  phase : OpPhase
  conflicts : Nat
  deriving DecidableEq

def initOp (maxRetries : Nat) : OpState :=
  { phase := if maxRetries = 0 then .doneFail else .toRead, conflicts := 0 }

/-- One atomic step of a client append operation against the store.  The
server-side download of one request is one step; the server-side mutate
plus conditional upload is a second step, so the other operation may act
in between.  A 409 sends the client back around its retry loop (the
backoff wait does not touch the store); any other non-200 response makes
the client throw; after `maxRetries` consecutive conflicts the loop exits
exhausted. -/
def stepOp (maxRetries : Nat) (path : Json) (value : Json) (st : Store)
    (o : OpState) : Store × OpState :=
  match o.phase with
  | .toRead => (st, { o with phase := .toWrite st.doc st.ver })
  | .toWrite snap etag =>
    let res := postRequest snap etag st.ver path (some value)
    if res.status = 409 then
      let c := o.conflicts + 1
      if c < maxRetries then (st, { phase := .toRead, conflicts := c })
      else (st, { phase := .doneFail, conflicts := c })
    else if res.status = 200 then
      match res.written with
      | some d => ({ doc := d, ver := st.ver + 1 }, { o with phase := .doneOk })
      | none => (st, { o with phase := .doneFail })
    else (st, { o with phase := .doneFail })
  | _ => (st, o)

/-- Two concurrent append operations (A appending `vA`, B appending `vB`)
over one shared store. -/
structure Sys where
  store : Store
  opA : OpState
  opB : OpState
  deriving DecidableEq

def sysStep (maxRetries : Nat) (path : Json) (vA vB : Json) (s : Sys)
    (who : Bool) : Sys :=
  if who then
    let p := stepOp maxRetries path vA s.store s.opA
    { s with store := p.1, opA := p.2 }
  else
    let p := stepOp maxRetries path vB s.store s.opB
    { s with store := p.1, opB := p.2 }

/-- Run the two operations under an arbitrary interleaving: `sched` names,
step by step, which operation acts next. -/
def sysRun (maxRetries : Nat) (path : Json) (vA vB : Json) (init : Sys)
    (sched : List Bool) : Sys :=
  sched.foldl (sysStep maxRetries path vA vB) init

def initSys (doc : Json) (maxRetries : Nat) : Sys :=
  { store := { doc := doc, ver := 0 },
    opA := initOp maxRetries, opB := initOp maxRetries }

/-- Outcome of a resolver: a resolved node, unresolved, or a thrown
runtime error. -/
inductive NavRes where
  | node (j : Json)
  | unresolved
  | err
  deriving DecidableEq

/-- Resolver as described by the specification's words in claim C9 (a
second definition following the claim, for comparison with the embedded
`navigateToPath`): an all-digit segment indexes the current node as an
array at that integer position, any other segment indexes it as an object
field, and resolution is unresolved as soon as a segment is missing or the
current node is not an indexable container. -/
def resolveClaim (j : Json) : List String → NavRes
  | [] => .node j
  | seg :: rest =>
    if isDigits seg then
      match j with
      | .arr l =>
        match l.get? (parseNat seg) with
        | some child => resolveClaim child rest
        | none => .unresolved
      | _ => .unresolved
    else
      match j with
      | .obj fs =>
        match objGet fs seg with
        | some child => resolveClaim child rest
        | none => .unresolved
      | _ => .unresolved

/-- Structural restatement of what `navigateToPath` actually computes
(used by the amended claim C9): digit segments index arrays at the integer
position, objects at the field named by the digits, and strings at the
character position; non-digit segments index object fields, with `length`
also resolving on arrays and strings; missing members and primitive
numbers/booleans make the path unresolved; property access on `null`
throws. -/
def resolveModel (j : Json) : List String → NavRes
  | [] => .node j
  | seg :: rest =>
    match j with
    | .null => .err
    | .obj fs =>
      match objGet fs (segKey seg) with
      | some child => resolveModel child rest
      | none => .unresolved
    | .arr l =>
      if isDigits seg then
        match l.get? (parseNat seg) with
        | some child => resolveModel child rest
        | none => .unresolved
      else if seg = "length" then resolveModel (.num l.length) rest
      else .unresolved
    | .str s =>
      if isDigits seg then
        match s.data.get? (parseNat seg) with
        | some c => resolveModel (.str (String.mk [c])) rest
        | none => .unresolved
      else if seg = "length" then resolveModel (.num s.length) rest
      else .unresolved
    | .num _ => .unresolved
    | .bool _ => .unresolved

/-- View of a resolver run as a `NavRes`. -/
def navResOf : Except JsErr (Option Json) → NavRes
  | .ok (some j) => .node j
  | .ok none => .unresolved
  | .error _ => .err

/-- Does `item.id === id` hold?  (For non-`null` items the property read
cannot throw; `null` items make the handler throw instead, see C10.) -/
def idMatches (id item : Json) : Bool :=
  match getProp item "id" with
  | .ok (some x) => jsStrictEq x id
  | _ => false

def isOkPhase : OpPhase → Bool
  | .doneOk => true
  | _ => false

/-- Which values the two appenders have successfully committed, in the
order their conditional writes landed. -/
def wShape (aOk bOk : Bool) (vA vB : Json) (w : List Json) : Prop :=
  match aOk, bOk with
  | false, false => w = []
  | true, false => w = [vA]
  | false, true => w = [vB]
  | true, true => w = [vA, vB] ∨ w = [vB, vA]

/-- A pending conditional write holds an ETag no newer than the store's,
and when the ETag is current its snapshot is the store's document (the
version token changes exactly when the document does). -/
def pendOk (st : Store) (o : OpState) : Prop :=
  ∀ d rv, o.phase = .toWrite d rv → rv ≤ st.ver ∧ (rv = st.ver → d = st.doc)

/-- Inductive invariant of the two-appender system: the target array is the
initial array extended by the successfully committed values in commit
order, the version counts the successful writes, and both pending writes
are consistent with the store. -/
def SysInv (segs : List String) (l0 : List Json) (vA vB : Json) (s : Sys) : Prop :=
  (∃ w, wShape (isOkPhase s.opA.phase) (isOkPhase s.opB.phase) vA vB w ∧
    navigateSegs (some s.store.doc) segs = .ok (some (.arr (l0 ++ w)))) ∧
  s.store.ver = (cond (isOkPhase s.opA.phase) 1 0) +
    (cond (isOkPhase s.opB.phase) 1 0) ∧
  pendOk s.store s.opA ∧ pendOk s.store s.opB

def sysSwap (s : Sys) : Sys := { store := s.store, opA := s.opB, opB := s.opA }

/-! Theorems.  Each claim of the specification audit has exactly one main
theorem below, preceded by a doc comment naming the claim. -/

/-- C4: the client-facing API object built by `createApi` exposes no
`patchItem` method — only `isMock`, `listName`, `fetchTasks`, `saveTasks`,
`appendItem` and `deleteItem` — although the swarmspace UI calls
`api.patchItem(...)` and the repository's multi-user document describes
`api.patchItem(path, value, maxRetries = 3)`. -/
theorem create_api_lacks_patch_item : ("patchItem" ∈ createApiMethods) = False := by
  simp [createApiMethods]

/-- C10: on the document `{a: null}` with path `a.b`, the resolver does not
return unresolved but throws (its guard checks only for `undefined`, not
`null`), and the POST handler's outer catch turns this into HTTP 500 with
no write — unlike the 400 "Path must point to array" that a merely missing
segment (such as `a.b` on `{a: {}}`) produces. -/
theorem null_traversal_throws_500 :
    navigateToPath (.obj [("a", .null)]) "a.b" = .error .typeError ∧
    navResOf (navigateToPath (.obj [("a", .null)]) "a.b") ≠ .unresolved ∧
    (postRequest (.obj [("a", .null)]) 0 0 (.str "a.b") (some (.str "x"))).status = 500 ∧
    (postRequest (.obj [("a", .null)]) 0 0 (.str "a.b") (some (.str "x"))).status ≠ 400 ∧
    (postRequest (.obj [("a", .null)]) 0 0 (.str "a.b") (some (.str "x"))).written = none ∧
    (postRequest (.obj [("a", .obj [])]) 0 0 (.str "a.b") (some (.str "x"))).status = 400 := by
  refine ⟨by decide, by decide, by decide, by decide, by decide, by decide⟩

/-- C2: for each mutation operation (POST append, DELETE remove-by-id,
PATCH field update) whose read-mutate stage produced a document to upload,
a version token that no longer matches at upload time (storage 412) yields
HTTP 409 with error "Conflict, please retry" after exactly one upload
attempt — the handler does not retry internally — while a matching token
yields HTTP 200 with `success` and the entire post-mutation document as
`data`. -/
theorem mutation_conflict_or_full_document
    (doc1 doc2 doc3 p1 p2 p3 : Json) (v1 v3 : Option Json) (id2 : Json)
    (d1 d2 d3 : Json) (rv sv : Nat)
    (h1 : postMutate doc1 p1 v1 = .ok (.mutated d1))
    (h2 : deleteMutate doc2 p2 id2 = .ok (.mutated d2))
    (h3 : patchMutate doc3 p3 v3 = .ok (.mutated d3)) :
    (rv ≠ sv →
      postRequest doc1 rv sv p1 v1 =
        { status := 409, error := some "Conflict, please retry", success := false,
          data := none, written := none, uploads := 1 } ∧
      deleteRequest doc2 rv sv p2 id2 =
        { status := 409, error := some "Conflict, please retry", success := false,
          data := none, written := none, uploads := 1 } ∧
      patchRequest doc3 rv sv p3 v3 =
        { status := 409, error := some "Conflict, please retry", success := false,
          data := none, written := none, uploads := 1 }) ∧
    (rv = sv →
      postRequest doc1 rv sv p1 v1 =
        { status := 200, error := none, success := true,
          data := some d1, written := some d1, uploads := 1 } ∧
      deleteRequest doc2 rv sv p2 id2 =
        { status := 200, error := none, success := true,
          data := some d2, written := some d2, uploads := 1 } ∧
      patchRequest doc3 rv sv p3 v3 =
        { status := 200, error := none, success := true,
          data := some d3, written := some d3, uploads := 1 }) := by
  unfold postRequest deleteRequest patchRequest
  rw [h1, h2, h3]
  constructor
  · intro hne
    simp only [finishRequest, if_neg hne]
    exact ⟨trivial, trivial, trivial⟩
  · intro heq
    simp only [finishRequest, if_pos heq]
    exact ⟨trivial, trivial, trivial⟩

theorem mutation_conflict_or_full_document_witness :
    postMutate (.obj [("r", .arr [])]) (.str "r") (some (.num 7))
      = .ok (.mutated (.obj [("r", .arr [.num 7])])) ∧
    deleteMutate (.obj [("r", .arr [.obj [("id", .str "a")]])]) (.str "r") (.str "a")
      = .ok (.mutated (.obj [("r", .arr [])])) ∧
    patchMutate (.obj [("t", .str "old")]) (.str "t") (some (.str "new"))
      = .ok (.mutated (.obj [("t", .str "new")])) ∧
    (0 : Nat) ≠ 1 ∧
    (postRequest (.obj [("r", .arr [])]) 0 1 (.str "r") (some (.num 7))).status = 409 ∧
    (postRequest (.obj [("r", .arr [])]) 0 0 (.str "r") (some (.num 7))).data
      = some (.obj [("r", .arr [.num 7])]) := by
  refine ⟨by decide, by decide, by decide, by decide, ?_, ?_⟩
  · have h := mutation_conflict_or_full_document
      (.obj [("r", .arr [])]) (.obj [("r", .arr [.obj [("id", .str "a")]])])
      (.obj [("t", .str "old")]) (.str "r") (.str "r") (.str "t")
      (some (.num 7)) (some (.str "new")) (.str "a")
      (.obj [("r", .arr [.num 7])]) (.obj [("r", .arr [])]) (.obj [("t", .str "new")])
      0 1 (by decide) (by decide) (by decide)
    rw [(h.1 (by decide)).1]
  · have h := mutation_conflict_or_full_document
      (.obj [("r", .arr [])]) (.obj [("r", .arr [.obj [("id", .str "a")]])])
      (.obj [("t", .str "old")]) (.str "r") (.str "r") (.str "t")
      (some (.num 7)) (some (.str "new")) (.str "a")
      (.obj [("r", .arr [.num 7])]) (.obj [("r", .arr [])]) (.obj [("t", .str "new")])
      0 0 (by decide) (by decide) (by decide)
    rw [(h.2 rfl).1]

lemma httpOk_ne_409 {r : HttpResp} (h : r.ok = true) : r.status ≠ 409 := by
  have h1 := (Bool.and_eq_true _ _).mp h
  have h2 := of_decide_eq_true h1.1
  have h3 := of_decide_eq_true h1.2
  omega

lemma appendItemAux_success (respond : Nat → HttpResp) :
    ∀ (k i r : Nat), k < r → (∀ j, j < k → (respond (i + j)).status = 409) →
    (respond (i + k)).ok = true →
    appendItemAux respond i r =
      { res := .data (respond (i + k)).data,
        delays := (List.range k).map (fun j => 100 * (i + j + 1)),
        requests := k + 1, fellBack := false } := by
  intro k
  induction k with
  | zero =>
    intro i r hk _ hok
    obtain ⟨r1, rfl⟩ : ∃ r1, r = r1 + 1 := ⟨r - 1, by omega⟩
    simp only [Nat.add_zero] at hok
    simp [appendItemAux, httpOk_ne_409 hok, hok]
  | succ k ih =>
    intro i r hk hconf hok
    obtain ⟨r1, rfl⟩ : ∃ r1, r = r1 + 1 := ⟨r - 1, by omega⟩
    have h0 : (respond i).status = 409 := by
      have := hconf 0 (Nat.succ_pos k)
      simpa using this
    have hrec := ih (i + 1) r1 (by omega)
      (fun j hj => by
        have := hconf (j + 1) (by omega)
        simpa [Nat.add_assoc, Nat.add_comm 1 j] using this)
      (by simpa [Nat.add_assoc, Nat.add_comm 1 k] using hok)
    simp only [appendItemAux, h0, if_pos rfl, if_true, hrec, ClientOut.mk.injEq,
      List.range_succ_eq_map, List.map_cons, List.map_map]
    refine ⟨by rw [show i + 1 + k = i + (k + 1) from by omega], ?_, trivial, trivial⟩
    rw [show i + 0 + 1 = i + 1 from by omega]
    congr 1
    apply List.map_congr_left
    intro j _
    simp only [Function.comp_apply]
    omega

lemma appendItemAux_exhaust (respond : Nat → HttpResp) :
    ∀ (r i : Nat), (∀ j, j < r → (respond (i + j)).status = 409) →
    appendItemAux respond i r =
      { res := .exhausted,
        delays := (List.range r).map (fun j => 100 * (i + j + 1)),
        requests := r, fellBack := false } := by
  intro r
  induction r with
  | zero => intro i _; simp [appendItemAux]
  | succ r ih =>
    intro i hconf
    have h0 : (respond i).status = 409 := by
      have := hconf 0 (Nat.succ_pos r)
      simpa using this
    have hrec := ih (i + 1)
      (fun j hj => by
        have := hconf (j + 1) (by omega)
        simpa [Nat.add_assoc, Nat.add_comm 1 j] using this)
    simp only [appendItemAux, h0, if_pos rfl, if_true, hrec, ClientOut.mk.injEq,
      List.range_succ_eq_map, List.map_cons, List.map_map]
    refine ⟨trivial, ?_, trivial, trivial⟩
    rw [show i + 0 + 1 = i + 1 from by omega]
    congr 1
    apply List.map_congr_left
    intro j _
    simp only [Function.comp_apply]
    omega

lemma deleteItemAux_eq_appendItemAux (respond : Nat → HttpResp) :
    ∀ (r i : Nat), deleteItemAux respond i r = appendItemAux respond i r := by
  intro r
  induction r with
  | zero => intro i; rfl
  | succ r ih =>
    intro i
    simp only [deleteItemAux, appendItemAux, ih (i + 1)]

/-- C3: each retrying client method (`appendItem`, `deleteItem`) reacts to
a 409 Conflict by waiting `100 * attemptNumber` milliseconds (linear
backoff: attempt 1 waits 100, attempt 2 waits 200, ...) and issuing the
whole atomic request again from scratch; after `k < maxRetries` conflicts
followed by a success it resolves with that response's full document, and
after `maxRetries` consecutive conflicts it throws `Max retries exceeded`
without ever falling back to an unconditional full-document write. -/
theorem client_retry_linear_backoff_bounded
    (respondA respondD : Nat → HttpResp) (maxRetries k : Nat) :
    (k < maxRetries → (∀ j, j < k → (respondA j).status = 409) →
      (respondA k).ok = true →
      appendItemLoop respondA maxRetries =
        { res := .data (respondA k).data,
          delays := (List.range k).map (fun j => 100 * (j + 1)),
          requests := k + 1, fellBack := false }) ∧
    ((∀ j, j < maxRetries → (respondA j).status = 409) →
      appendItemLoop respondA maxRetries =
        { res := .exhausted,
          delays := (List.range maxRetries).map (fun j => 100 * (j + 1)),
          requests := maxRetries, fellBack := false }) ∧
    (k < maxRetries → (∀ j, j < k → (respondD j).status = 409) →
      (respondD k).ok = true →
      deleteItemLoop respondD maxRetries =
        { res := .data (respondD k).data,
          delays := (List.range k).map (fun j => 100 * (j + 1)),
          requests := k + 1, fellBack := false }) ∧
    ((∀ j, j < maxRetries → (respondD j).status = 409) →
      deleteItemLoop respondD maxRetries =
        { res := .exhausted,
          delays := (List.range maxRetries).map (fun j => 100 * (j + 1)),
          requests := maxRetries, fellBack := false }) := by
  refine ⟨?_, ?_, ?_, ?_⟩
  · intro hk hconf hok
    have := appendItemAux_success respondA k 0 maxRetries hk
      (fun j hj => by simpa using hconf j hj) (by simpa using hok)
    simpa [appendItemLoop] using this
  · intro hconf
    have := appendItemAux_exhaust respondA maxRetries 0
      (fun j hj => by simpa using hconf j hj)
    simpa [appendItemLoop] using this
  · intro hk hconf hok
    have := appendItemAux_success respondD k 0 maxRetries hk
      (fun j hj => by simpa using hconf j hj) (by simpa using hok)
    simpa [deleteItemLoop, deleteItemAux_eq_appendItemAux] using this
  · intro hconf
    have := appendItemAux_exhaust respondD maxRetries 0
      (fun j hj => by simpa using hconf j hj)
    simpa [deleteItemLoop, deleteItemAux_eq_appendItemAux] using this

theorem client_retry_linear_backoff_bounded_witness :
    appendItemLoop
        (fun i => if i < 2 then { status := 409, data := .null }
                  else { status := 200, data := .num 7 }) 3 =
      { res := .data (.num 7), delays := [100, 200], requests := 3,
        fellBack := false } ∧
    deleteItemLoop (fun _ => { status := 409, data := .null }) 3 =
      { res := .exhausted, delays := [100, 200, 300], requests := 3,
        fellBack := false } := by
  constructor
  · have h := (client_retry_linear_backoff_bounded
      (fun i => if i < 2 then { status := 409, data := .null }
                else { status := 200, data := .num 7 })
      (fun _ => { status := 409, data := .null }) 3 2).1
      (by decide) (by decide) (by decide)
    simpa using h
  · have h := (client_retry_linear_backoff_bounded
      (fun i => if i < 2 then { status := 409, data := .null }
                else { status := 200, data := .num 7 })
      (fun _ => { status := 409, data := .null }) 3 2).2.2.2
      (by intro j hj; rfl)
    simpa using h

lemma exceptBind_ok {α β : Type} (x : α) (f : α → Except JsErr β) :
    (Except.ok x >>= f) = f x := rfl

lemma exceptBind_error {α β : Type} (e : JsErr) (f : α → Except JsErr β) :
    ((Except.error e : Except JsErr α) >>= f) = .error e := rfl

lemma postMutate_notArray
    (doc : Json) (p : String) (v : Json) (target : Option Json)
    (hp : p ≠ "")
    (hnav : navigateSegs (some doc) (jsSplitDot p) = .ok target)
    (harr : ∀ l, target ≠ some (.arr l)) :
    postMutate doc (.str p) (some v) = .ok (.reject 400 "Path must point to array") := by
  have htr : Json.truthy (.str p) = true := by simp [Json.truthy, hp]
  simp only [postMutate, htr, Bool.not_true, if_false, jsSplit, exceptBind_ok]
  rw [hnav, exceptBind_ok]
  match target, harr with
  | none, _ => rfl
  | some .null, _ => rfl
  | some (.bool b), _ => rfl
  | some (.num n), _ => rfl
  | some (.str s), _ => rfl
  | some (.obj fs), _ => rfl
  | some (.arr l), harr => exact absurd rfl (harr l)

lemma deleteMutate_start
    (doc : Json) (p : String) (id : Json)
    (hp : p ≠ "") (hid : id.truthy = true) :
    deleteMutate doc (.str p) id =
      (navigateSegs (some doc) (jsSplitDot p) >>= fun target =>
        match target with
        | some (.arr l) =>
          findIndexByIdAux l id 0 >>= fun idx =>
            match idx with
            | none => pure (.reject 404 "Item not found")
            | some i => pure (.mutated (replaceAtPath doc (jsSplitDot p) (.arr (l.eraseIdx i))))
        | _ => pure (.reject 400 "Path must point to array")) := by
  have htr : Json.truthy (.str p) = true := by simp [Json.truthy, hp]
  simp only [deleteMutate, htr, hid, Bool.not_true, Bool.or_self, Bool.false_eq_true,
    if_false, jsSplit, exceptBind_ok]

lemma deleteMutate_notArray
    (doc : Json) (p : String) (id : Json) (target : Option Json)
    (hp : p ≠ "") (hid : id.truthy = true)
    (hnav : navigateSegs (some doc) (jsSplitDot p) = .ok target)
    (harr : ∀ l, target ≠ some (.arr l)) :
    deleteMutate doc (.str p) id = .ok (.reject 400 "Path must point to array") := by
  rw [deleteMutate_start doc p id hp hid, hnav, exceptBind_ok]
  match target, harr with
  | none, _ => rfl
  | some .null, _ => rfl
  | some (.bool b), _ => rfl
  | some (.num n), _ => rfl
  | some (.str s), _ => rfl
  | some (.obj fs), _ => rfl
  | some (.arr l), harr => exact absurd rfl (harr l)

/-- C5: for every document and every well-formed POST/DELETE request whose
path resolution returns — without throwing — something other than an array
(a missing target or a non-array node), both operations reject with HTTP
400 "Path must point to array", no upload is attempted, and the stored
document is untouched. -/
theorem array_ops_invalid_path_no_write
    (doc : Json) (p : String) (v id : Json) (target : Option Json)
    (readVer storeVer : Nat)
    (hp : p ≠ "")
    (hid : id.truthy = true)
    (hnav : navigateSegs (some doc) (jsSplitDot p) = .ok target)
    (harr : ∀ l, target ≠ some (.arr l)) :
    postRequest doc readVer storeVer (.str p) (some v) =
      { status := 400, error := some "Path must point to array", success := false,
        data := none, written := none, uploads := 0 } ∧
    deleteRequest doc readVer storeVer (.str p) id =
      { status := 400, error := some "Path must point to array", success := false,
        data := none, written := none, uploads := 0 } := by
  constructor
  · unfold postRequest
    rw [postMutate_notArray doc p v target hp hnav harr]
    rfl
  · unfold deleteRequest
    rw [deleteMutate_notArray doc p id target hp hid hnav harr]
    rfl

theorem array_ops_invalid_path_no_write_witness :
    ("title" : String) ≠ "" ∧
    Json.truthy (.str "x") = true ∧
    navigateSegs (some (.obj [("title", .str "Test")])) (jsSplitDot "title")
      = .ok (some (.str "Test")) ∧
    (postRequest (.obj [("title", .str "Test")]) 0 0 (.str "title")
        (some (.num 1))).status = 400 ∧
    (deleteRequest (.obj [("title", .str "Test")]) 0 0 (.str "title")
        (.str "x")).written = none := by
  refine ⟨by decide, by decide, by decide, ?_, ?_⟩
  · have h := array_ops_invalid_path_no_write (.obj [("title", .str "Test")])
      "title" (.num 1) (.str "x") (some (.str "Test")) 0 0
      (by decide) (by decide) (by decide) (by intro l h; simp at h)
    rw [h.1]
  · have h := array_ops_invalid_path_no_write (.obj [("title", .str "Test")])
      "title" (.num 1) (.str "x") (some (.str "Test")) 0 0
      (by decide) (by decide) (by decide) (by intro l h; simp at h)
    rw [h.2]

lemma getProp_of_ne_null (x : Json) (seg : String) (hx : x ≠ .null) :
    ∃ o, getProp x seg = .ok o := by
  cases x with
  | null => exact absurd rfl hx
  | bool b => exact ⟨none, rfl⟩
  | num n => exact ⟨none, rfl⟩
  | str s => exact ⟨_, rfl⟩
  | arr l => exact ⟨_, rfl⟩
  | obj fs => exact ⟨_, rfl⟩

lemma findIndexByIdAux_none (id : Json) :
    ∀ (l : List Json) (i : Nat),
    (∀ x ∈ l, x ≠ Json.null) → (∀ x ∈ l, idMatches id x = false) →
    findIndexByIdAux l id i = .ok none := by
  intro l
  induction l with
  | nil => intro i _ _; rfl
  | cons item rest ih =>
    intro i hnn hnm
    obtain ⟨o, ho⟩ := getProp_of_ne_null item "id" (hnn item (by simp))
    have hm := hnm item (by simp)
    simp only [findIndexByIdAux, ho, exceptBind_ok]
    have hrest := ih (i + 1) (fun x hx => hnn x (by simp [hx])) (fun x hx => hnm x (by simp [hx]))
    cases o with
    | none =>
      show findIndexByIdAux rest id (i + 1) = Except.ok none
      exact hrest
    | some y =>
      have hy : jsStrictEq y id = false := by
        simpa [idMatches, ho] using hm
      simp only [hy, Bool.false_eq_true, if_false]
      exact hrest

lemma findIndexByIdAux_found (id : Json) :
    ∀ (l1 : List Json) (e : Json) (l2 : List Json) (i : Nat),
    (∀ x ∈ l1, x ≠ Json.null) → (∀ x ∈ l1, idMatches id x = false) →
    e ≠ .null → idMatches id e = true →
    findIndexByIdAux (l1 ++ e :: l2) id i = .ok (some (i + l1.length)) := by
  intro l1
  induction l1 with
  | nil =>
    intro e l2 i _ _ hen hem
    obtain ⟨o, ho⟩ := getProp_of_ne_null e "id" hen
    simp only [List.nil_append, findIndexByIdAux, ho, exceptBind_ok]
    cases o with
    | none => simp [idMatches, ho] at hem
    | some y =>
      have hy : jsStrictEq y id = true := by simpa [idMatches, ho] using hem
      simp only [hy, if_true]
      rfl
  | cons item rest ih =>
    intro e l2 i hnn hnm hen hem
    obtain ⟨o, ho⟩ := getProp_of_ne_null item "id" (hnn item (by simp))
    have hm := hnm item (by simp)
    simp only [List.cons_append, findIndexByIdAux, ho, exceptBind_ok]
    have hrec := ih e l2 (i + 1) (fun x hx => hnn x (by simp [hx]))
      (fun x hx => hnm x (by simp [hx])) hen hem
    have hlen : i + 1 + rest.length = i + (item :: rest).length := by
      simp only [List.length_cons]
      omega
    cases o with
    | none =>
      show findIndexByIdAux (rest ++ e :: l2) id (i + 1)
        = Except.ok (some (i + (item :: rest).length))
      rw [hrec, hlen]
    | some y =>
      have hy : jsStrictEq y id = false := by simpa [idMatches, ho] using hm
      simp only [hy, Bool.false_eq_true, if_false]
      show findIndexByIdAux (rest ++ e :: l2) id (i + 1)
        = Except.ok (some (i + (item :: rest).length))
      rw [hrec, hlen]

lemma eraseIdx_append_middle (e : Json) :
    ∀ (l1 l2 : List Json), (l1 ++ e :: l2).eraseIdx l1.length = l1 ++ l2 := by
  intro l1
  induction l1 with
  | nil => intro l2; rfl
  | cons x rest ih => intro l2; simp [List.eraseIdx, ih l2]

/-- C6: for every array target whose elements are non-`null` and every
truthy id, RemoveById removes exactly the first element whose `id` field
strictly equals the requested id, preserving the order of the remaining
elements, and returns the full post-mutation document; when no element
matches, it rejects with HTTP 404 "Item not found", attempts no upload,
and leaves the array unchanged. -/
theorem remove_by_id_first_match_or_not_found
    (doc : Json) (p : String) (id : Json) (l : List Json)
    (readVer storeVer : Nat)
    (hp : p ≠ "") (hid : id.truthy = true)
    (hnav : navigateSegs (some doc) (jsSplitDot p) = .ok (some (.arr l)))
    (hnn : ∀ x ∈ l, x ≠ Json.null) :
    (∀ l1 e l2, l = l1 ++ e :: l2 →
      (∀ x ∈ l1, idMatches id x = false) → idMatches id e = true →
      readVer = storeVer →
      deleteRequest doc readVer storeVer (.str p) id =
        { status := 200, error := none, success := true,
          data := some (replaceAtPath doc (jsSplitDot p) (.arr (l1 ++ l2))),
          written := some (replaceAtPath doc (jsSplitDot p) (.arr (l1 ++ l2))),
          uploads := 1 }) ∧
    ((∀ x ∈ l, idMatches id x = false) →
      deleteRequest doc readVer storeVer (.str p) id =
        { status := 404, error := some "Item not found", success := false,
          data := none, written := none, uploads := 0 }) := by
  constructor
  · intro l1 e l2 hsplit hnm hem hver
    have hen : e ≠ .null := hnn e (by simp [hsplit])
    have hfind : findIndexByIdAux l id 0 = .ok (some l1.length) := by
      rw [hsplit]
      have := findIndexByIdAux_found id l1 e l2 0
        (fun x hx => hnn x (by simp [hsplit, hx]))
        (fun x hx => hnm x hx) hen hem
      simpa using this
    have hm : deleteMutate doc (.str p) id =
        .ok (.mutated (replaceAtPath doc (jsSplitDot p) (.arr (l1 ++ l2)))) := by
      rw [deleteMutate_start doc p id hp hid, hnav, exceptBind_ok]
      simp only [hfind, exceptBind_ok]
      rw [hsplit, eraseIdx_append_middle]
      rfl
    unfold deleteRequest
    rw [hm]
    simp only [finishRequest, if_pos hver]
  · intro hnm
    have hfind : findIndexByIdAux l id 0 = .ok none :=
      findIndexByIdAux_none id l 0 hnn hnm
    have hm : deleteMutate doc (.str p) id = .ok (.reject 404 "Item not found") := by
      rw [deleteMutate_start doc p id hp hid, hnav, exceptBind_ok]
      simp only [hfind, exceptBind_ok]
      rfl
    unfold deleteRequest
    rw [hm]
    rfl

theorem remove_by_id_first_match_or_not_found_witness :
    (deleteRequest (.obj [("r", .arr [.obj [("id", .str "a")], .obj [("id", .str "b")],
        .obj [("id", .str "c")]])]) 0 0 (.str "r") (.str "b")).written
      = some (.obj [("r", .arr [.obj [("id", .str "a")], .obj [("id", .str "c")]])]) ∧
    deleteRequest (.obj [("r", .arr [.obj [("id", .str "a")], .obj [("id", .str "b")],
        .obj [("id", .str "c")]])]) 0 0 (.str "r") (.str "z")
      = { status := 404, error := some "Item not found", success := false,
          data := none, written := none, uploads := 0 } := by
  constructor
  · have h := (remove_by_id_first_match_or_not_found
      (.obj [("r", .arr [.obj [("id", .str "a")], .obj [("id", .str "b")],
        .obj [("id", .str "c")]])]) "r" (.str "b")
      [.obj [("id", .str "a")], .obj [("id", .str "b")], .obj [("id", .str "c")]]
      0 0 (by decide) (by decide) (by decide) (by decide)).1
      [.obj [("id", .str "a")]] (.obj [("id", .str "b")]) [.obj [("id", .str "c")]]
      rfl (by decide) (by decide) rfl
    rw [h]
    rfl
  · exact (remove_by_id_first_match_or_not_found
      (.obj [("r", .arr [.obj [("id", .str "a")], .obj [("id", .str "b")],
        .obj [("id", .str "c")]])]) "r" (.str "z")
      [.obj [("id", .str "a")], .obj [("id", .str "b")], .obj [("id", .str "c")]]
      0 0 (by decide) (by decide) (by decide) (by decide)).2 (by decide)

lemma navigateSegs_undefined : ∀ segs : List String, navigateSegs none segs = .ok none := by
  intro segs
  induction segs with
  | nil => rfl
  | cons seg rest ih => simpa [navigateSegs] using ih

/-- C9 counterexample: on `{a: "hi"}` with path `a.0` the claim's resolver
description yields unresolved (a string is not an indexable container), but
`navigateToPath` indexes the string and resolves the one-character string
`"h"`. -/
theorem resolver_string_indexing_counterexample :
    resolveClaim (.obj [("a", .str "hi")]) (jsSplitDot "a.0") = .unresolved ∧
    navigateToPath (.obj [("a", .str "hi")]) "a.0" = .ok (some (.str "h")) ∧
    navResOf (navigateToPath (.obj [("a", .str "hi")]) "a.0") ≠ .unresolved := by
  refine ⟨by decide, by decide, by decide⟩

/-- C9 (amended): `navigateToPath` splits the path on `.` and resolves it
exactly as `resolveModel` describes: digit segments index arrays at the
integer position, objects at the field named by the digits, and strings at
the character position; non-digit segments index object fields, with
`length` also resolving on arrays and strings; a missing member or a
number/boolean node makes the result unresolved, and property access on a
`null` node throws a runtime error instead of returning unresolved. -/
theorem resolver_amended_characterization (root : Json) (path : String) :
    navResOf (navigateToPath root path) = resolveModel root (jsSplitDot path) := by
  unfold navigateToPath
  generalize jsSplitDot path = segs
  induction segs generalizing root with
  | nil => rfl
  | cons seg rest ih =>
    cases root with
    | null => rfl
    | bool b =>
      simp only [navigateSegs, getProp, exceptBind_ok, navigateSegs_undefined]
      rfl
    | num n =>
      simp only [navigateSegs, getProp, exceptBind_ok, navigateSegs_undefined]
      rfl
    | obj fs =>
      show navResOf (getProp (.obj fs) seg >>= fun c => navigateSegs c rest) = _
      simp only [getProp, exceptBind_ok]
      cases h : objGet fs (segKey seg) with
      | none =>
        simp only [navigateSegs_undefined, resolveModel, h]
        rfl
      | some child =>
        simp only [resolveModel, h]
        exact ih child
    | arr l =>
      show navResOf (getProp (.arr l) seg >>= fun c => navigateSegs c rest) = _
      simp only [getProp, exceptBind_ok]
      by_cases hd : isDigits seg = true
      · simp only [hd, if_true]
        cases h : l.get? (parseNat seg) with
        | none =>
          simp only [navigateSegs_undefined, resolveModel, hd, h]
          rfl
        | some child =>
          simp only [resolveModel, hd, h, if_true]
          exact ih child
      · have hd' : isDigits seg = false := by simpa using hd
        by_cases hl : seg = "length"
        · simp only [hd', Bool.false_eq_true, if_false, hl, if_true]
          simp only [resolveModel, hd', Bool.false_eq_true, if_false, hl, if_true]
          exact ih (.num l.length)
        · simp only [hd', Bool.false_eq_true, if_false, if_neg hl, navigateSegs_undefined]
          simp only [resolveModel, hd', Bool.false_eq_true, if_false, if_neg hl]
          rfl
    | str s =>
      show navResOf (getProp (.str s) seg >>= fun c => navigateSegs c rest) = _
      simp only [getProp, exceptBind_ok]
      by_cases hd : isDigits seg = true
      · simp only [hd, if_true]
        cases h : s.data.get? (parseNat seg) with
        | none =>
          rw [List.get?_eq_getElem?] at h
          simp [h, navigateSegs_undefined, resolveModel, hd]
          rfl
        | some c =>
          simp only [h, Option.map_some', resolveModel, hd, if_true]
          exact ih (.str (String.mk [c]))
      · have hd' : isDigits seg = false := by simpa using hd
        by_cases hl : seg = "length"
        · simp only [hd', Bool.false_eq_true, if_false, hl, if_true]
          simp only [resolveModel, hd', Bool.false_eq_true, if_false, hl, if_true]
          exact ih (.num s.length)
        · simp only [hd', Bool.false_eq_true, if_false, if_neg hl, navigateSegs_undefined]
          simp only [resolveModel, hd', Bool.false_eq_true, if_false, if_neg hl]
          rfl

/-- C8 counterexample: appending `{weekNumber: 42}` to an empty `weeks`
sequence stores the caller's 42 verbatim — the server keeps a truthy
caller-supplied `weekNumber` instead of overriding it with a value computed
from the (empty) sequence, which would be 1. -/
theorem weeks_empty_keeps_caller_number_counterexample :
    (postRequest (.obj [("weeks", .arr [])]) 0 0 (.str "weeks")
        (some (.obj [("weekNumber", .num 42)]))).written
      = some (.obj [("weeks", .arr [.obj [("weekNumber", .num 42)]])]) ∧
    (Json.num 42) ≠ .num 1 := by
  refine ⟨by decide, by decide⟩

/-- C8 (amended): for an append to the path `weeks` with an object value,
the server computes `weekNumber` inside the same atomic operation when the
sequence is non-empty, overriding the caller with
`(lastWeek.weekNumber || 1) + 1`; when the sequence is empty it keeps a
truthy caller-supplied `weekNumber` and only defaults it to 1 otherwise. -/
theorem weeks_number_server_computed_amended
    (doc : Json) (fs : List (String × Json)) (l : List Json)
    (hnav : navigateSegs (some doc) (jsSplitDot "weeks") = .ok (some (.arr l))) :
    (l = [] →
      postMutate doc (.str "weeks") (some (.obj fs)) =
        .ok (.mutated (replaceAtPath doc (jsSplitDot "weeks")
          (.arr [.obj (objSet fs "weekNumber"
            (jsOr (objGet fs "weekNumber") (.num 1)))])))) ∧
    (∀ lastWeek wn, l.getLast? = some lastWeek →
      getProp lastWeek "weekNumber" = .ok wn →
      postMutate doc (.str "weeks") (some (.obj fs)) =
        .ok (.mutated (replaceAtPath doc (jsSplitDot "weeks")
          (.arr (l ++ [.obj (objSet fs "weekNumber"
            (jsAddOne (jsOr wn (.num 1))))]))))) := by
  have hstart : postMutate doc (.str "weeks") (some (.obj fs)) =
      (adjustWeeks "weeks" l (.obj fs) >>= fun v2 =>
        pure (.mutated (replaceAtPath doc (jsSplitDot "weeks") (.arr (l ++ [v2]))))) := by
    simp only [postMutate, Json.truthy, jsSplit, exceptBind_ok]
    rw [show (!(("weeks" : String) != "")) = false from rfl]
    simp only [Bool.false_eq_true, if_false]
    rw [hnav, exceptBind_ok]
    rfl
  constructor
  · intro hl
    subst hl
    rw [hstart]
    simp only [adjustWeeks, List.getLast?_nil]
    rfl
  · intro lastWeek wn hlast hwn
    rw [hstart]
    simp only [adjustWeeks, hlast, hwn]
    rfl

theorem weeks_number_server_computed_amended_witness :
    postMutate (.obj [("weeks", .arr [])]) (.str "weeks")
        (some (.obj [("weekNumber", .num 42)]))
      = .ok (.mutated (.obj [("weeks", .arr [.obj [("weekNumber", .num 42)]])])) ∧
    postMutate (.obj [("weeks", .arr [.obj [("weekNumber", .num 5)]])]) (.str "weeks")
        (some (.obj [("weekNumber", .num 99)]))
      = .ok (.mutated (.obj [("weeks", .arr [.obj [("weekNumber", .num 5)],
          .obj [("weekNumber", .num 6)]])])) := by
  constructor
  · have h := (weeks_number_server_computed_amended (.obj [("weeks", .arr [])])
      [("weekNumber", .num 42)] [] (by decide)).1 rfl
    rw [h]
    rfl
  · have h := (weeks_number_server_computed_amended
      (.obj [("weeks", .arr [.obj [("weekNumber", .num 5)]])])
      [("weekNumber", .num 99)] [.obj [("weekNumber", .num 5)]] (by decide)).2
      (.obj [("weekNumber", .num 5)]) (some (.num 5)) rfl rfl
    rw [h]
    rfl

/-- C7 counterexample: patching `a.b` on `{a: 5}` makes the `in` operator
throw on the primitive parent, which the outer catch surfaces as HTTP 500
with no write — not the InvalidPath 400 the claim requires for a missing
final key. -/
theorem patch_primitive_parent_counterexample :
    (patchRequest (.obj [("a", .num 5)]) 0 0 (.str "a.b") (some (.num 1))).status = 500 ∧
    (patchRequest (.obj [("a", .num 5)]) 0 0 (.str "a.b") (some (.num 1))).status ≠ 400 ∧
    (patchRequest (.obj [("a", .num 5)]) 0 0 (.str "a.b") (some (.num 1))).written = none := by
  refine ⟨by decide, by decide, by decide⟩

lemma splitDotAux_mem_no_dot :
    ∀ (cs acc : List Char), '.' ∉ acc → ∀ t ∈ splitDotAux cs acc, '.' ∉ t.data := by
  intro cs
  induction cs with
  | nil =>
    intro acc hacc t ht
    simp only [splitDotAux, List.mem_singleton] at ht
    subst ht
    intro hmem
    exact hacc (List.mem_reverse.mp hmem)
  | cons x xs ih =>
    intro acc hacc t ht
    by_cases hx : x = '.'
    · subst hx
      simp only [splitDotAux, if_pos rfl] at ht
      rcases List.mem_cons.mp ht with h | h
      · subst h
        intro hmem
        exact hacc (List.mem_reverse.mp hmem)
      · exact ih [] (by simp) t h
    · simp only [splitDotAux, if_neg hx] at ht
      refine ih (x :: acc) ?_ t ht
      intro hmem
      rcases List.mem_cons.mp hmem with h | h
      · exact hx h.symm
      · exact hacc h

lemma jsSplitDot_no_dot (s : String) : ∀ t ∈ jsSplitDot s, '.' ∉ t.data := by
  intro t ht
  exact splitDotAux_mem_no_dot s.data [] (by simp) t ht

lemma splitDotAux_all_no_dot :
    ∀ (cs : List Char), '.' ∉ cs →
    ∀ acc, splitDotAux cs acc = [String.mk (acc.reverse ++ cs)] := by
  intro cs
  induction cs with
  | nil => intro _ acc; simp [splitDotAux]
  | cons x xs ih =>
    intro hcs acc
    have hx : ¬(x = '.') := fun h => hcs (by simp [h])
    have hxs : '.' ∉ xs := fun h => hcs (by simp [h])
    simp only [splitDotAux, if_neg hx]
    rw [ih hxs (x :: acc)]
    congr 1
    simp

lemma splitDotAux_break :
    ∀ (cs : List Char), '.' ∉ cs → ∀ (rest acc : List Char),
    splitDotAux (cs ++ '.' :: rest) acc
      = String.mk (acc.reverse ++ cs) :: splitDotAux rest [] := by
  intro cs
  induction cs with
  | nil => intro _ rest acc; simp [splitDotAux]
  | cons x xs ih =>
    intro hcs rest acc
    have hx : ¬(x = '.') := fun h => hcs (by simp [h])
    have hxs : '.' ∉ xs := fun h => hcs (by simp [h])
    simp only [List.cons_append, splitDotAux, if_neg hx]
    show splitDotAux (xs ++ '.' :: rest) (x :: acc) = _
    rw [ih hxs rest (x :: acc)]
    congr 2
    simp

lemma joinDot_roundtrip :
    ∀ (l : List String), l ≠ [] → (∀ t ∈ l, '.' ∉ t.data) →
    jsSplitDot (joinDot l) = l := by
  intro l
  induction l with
  | nil => intro h _; exact absurd rfl h
  | cons s rest ih =>
    intro _ hnd
    cases rest with
    | nil =>
      show jsSplitDot s = [s]
      unfold jsSplitDot
      rw [splitDotAux_all_no_dot s.data (hnd s (by simp)) []]
      simp
    | cons r rs =>
      show jsSplitDot (s ++ "." ++ joinDot (r :: rs)) = s :: r :: rs
      unfold jsSplitDot
      rw [show (s ++ "." ++ joinDot (r :: rs)).data
            = s.data ++ '.' :: (joinDot (r :: rs)).data by
          simp [String.data_append]]
      rw [splitDotAux_break s.data (hnd s (by simp)) _ []]
      simp only [List.reverse_nil, List.nil_append]
      rw [show String.mk s.data = s from rfl]
      have := ih (by simp) (fun t ht => hnd t (by simp [ht]))
      unfold jsSplitDot at this
      rw [this]

lemma jsKeyStr_of_field (fld : String) :
    jsKeyStr (if isDigits fld then JsKey.idx (parseNat fld) else .name fld)
      = segKey fld := by
  by_cases h : isDigits fld = true
  · simp [h, jsKeyStr, segKey]
  · have h' : isDigits fld = false := by simpa using h
    simp [h', jsKeyStr, segKey]

lemma patchMutate_top
    (dfs : List (String × Json)) (p fld : String) (v : Json)
    (hp : p ≠ "") (hsplit : jsSplitDot p = [fld]) :
    patchMutate (.obj dfs) (.str p) (some v)
      = .ok (.mutated (.obj (objSet dfs (segKey fld) v))) := by
  have htr : Json.truthy (.str p) = true := by simp [Json.truthy, hp]
  simp only [patchMutate, htr, Bool.not_true, Bool.false_eq_true, if_false, jsSplit,
    exceptBind_ok]
  rw [hsplit]
  have h1 : joinDot ([fld].dropLast) = "" := rfl
  have h2 : ([fld].getLastD "") = fld := rfl
  rw [h1, h2]
  have hpb : ∀ {α β : Type} (x : α) (f : α → Except JsErr β),
      (pure x : Except JsErr α) >>= f = f x := fun x f => rfl
  simp only [if_pos rfl, if_true, hpb, exceptBind_ok, Bool.not_true, Bool.false_eq_true,
    if_false, jsSetKey, jsKeyStr_of_field]
  rfl

lemma patchMutate_nested
    (doc : Json) (p : String) (v : Json) (psegs : List String) (fld : String)
    (pfs : List (String × Json))
    (hp : p ≠ "")
    (hsplit : jsSplitDot p = psegs ++ [fld])
    (hpp : joinDot psegs ≠ "")
    (hparent : navigateSegs (some doc) psegs = .ok (some (.obj pfs)))
    (hproto : objectProtoKeys.contains (segKey fld) = false) :
    patchMutate doc (.str p) (some v) =
      (if (objGet pfs (segKey fld)).isSome then
        .ok (.mutated (replaceAtPath doc psegs (.obj (objSet pfs (segKey fld) v))))
      else .ok (.reject 400 "Invalid path")) := by
  have hps : psegs ≠ [] := by
    intro h
    exact hpp (by rw [h]; rfl)
  have hrt : jsSplitDot (joinDot psegs) = psegs := by
    refine joinDot_roundtrip psegs hps ?_
    intro t ht
    refine jsSplitDot_no_dot p t ?_
    rw [hsplit]
    exact List.mem_append_left _ ht
  have htr : Json.truthy (.str p) = true := by simp [Json.truthy, hp]
  have hpb : ∀ {α β : Type} (x : α) (f : α → Except JsErr β),
      (pure x : Except JsErr α) >>= f = f x := fun x f => rfl
  simp only [patchMutate, htr, Bool.not_true, Bool.false_eq_true, if_false, jsSplit,
    exceptBind_ok]
  rw [hsplit]
  have h1 : joinDot ((psegs ++ [fld]).dropLast) = joinDot psegs := by
    rw [List.dropLast_concat]
  have h2 : ((psegs ++ [fld]).getLastD "") = fld := by
    simp [List.getLastD_concat]
  rw [h1, h2]
  simp only [if_neg hpp]
  unfold navigateToPath
  rw [hrt, hparent, exceptBind_ok]
  show (jsIn _ (.obj pfs)) >>= _ = _
  simp only [jsIn, jsKeyStr_of_field, hproto, Bool.or_false, exceptBind_ok]
  cases hIs : (objGet pfs (segKey fld)).isSome with
  | false =>
    simp [hIs]
    rfl
  | true =>
    simp only [hIs, Bool.not_true, Bool.false_eq_true, if_false, jsSetKey,
      jsKeyStr_of_field, exceptBind_ok, hpb, if_neg hpp, hrt, if_true]
    rfl

/-- C7 (amended): PatchField sets `parent[finalSegment] = value` where the
parent is the node reached by the path minus its final segment.  For a
single-segment path on an object document the field is created if absent,
or overwritten.  For a nested path whose parent resolves to an object (and
a final key that is not an `Object.prototype` member name) the final key
must already exist in the parent: when it exists the field is overwritten
and the entire mutated document is returned; when it does not the operation
rejects with HTTP 400 "Invalid path" and no write occurs.  A parent that
resolves to a primitive raises a runtime TypeError surfaced as HTTP 500
instead of InvalidPath (see the counterexample). -/
theorem patch_field_amended
    (doc : Json) (p : String) (v : Json) (readVer storeVer : Nat)
    (hp : p ≠ "") :
    (∀ fld dfs, jsSplitDot p = [fld] → doc = .obj dfs → readVer = storeVer →
      patchRequest doc readVer storeVer (.str p) (some v) =
        { status := 200, error := none, success := true,
          data := some (.obj (objSet dfs (segKey fld) v)),
          written := some (.obj (objSet dfs (segKey fld) v)), uploads := 1 }) ∧
    (∀ psegs fld pfs, jsSplitDot p = psegs ++ [fld] → joinDot psegs ≠ "" →
      navigateSegs (some doc) psegs = .ok (some (.obj pfs)) →
      objectProtoKeys.contains (segKey fld) = false →
      ((objGet pfs (segKey fld)).isSome = true → readVer = storeVer →
        patchRequest doc readVer storeVer (.str p) (some v) =
          { status := 200, error := none, success := true,
            data := some (replaceAtPath doc psegs (.obj (objSet pfs (segKey fld) v))),
            written := some (replaceAtPath doc psegs (.obj (objSet pfs (segKey fld) v))),
            uploads := 1 }) ∧
      (objGet pfs (segKey fld) = none →
        patchRequest doc readVer storeVer (.str p) (some v) =
          { status := 400, error := some "Invalid path", success := false,
            data := none, written := none, uploads := 0 })) := by
  constructor
  · intro fld dfs hsplit hdoc hver
    subst hdoc
    unfold patchRequest
    rw [patchMutate_top dfs p fld v hp hsplit]
    simp only [finishRequest, if_pos hver]
  · intro psegs fld pfs hsplit hpp hparent hproto
    constructor
    · intro hIs hver
      unfold patchRequest
      rw [patchMutate_nested doc p v psegs fld pfs hp hsplit hpp hparent hproto]
      rw [if_pos hIs]
      simp only [finishRequest, if_pos hver]
    · intro hnone
      unfold patchRequest
      rw [patchMutate_nested doc p v psegs fld pfs hp hsplit hpp hparent hproto]
      rw [if_neg (by simp [hnone])]
      rfl

theorem patch_field_amended_witness :
    patchRequest (.obj [("title", .str "old")]) 0 0 (.str "title") (some (.str "new"))
      = { status := 200, error := none, success := true,
          data := some (.obj [("title", .str "new")]),
          written := some (.obj [("title", .str "new")]), uploads := 1 } ∧
    patchRequest (.obj [("a", .obj [("b", .num 0)])]) 0 0 (.str "a.b") (some (.num 7))
      = { status := 200, error := none, success := true,
          data := some (.obj [("a", .obj [("b", .num 7)])]),
          written := some (.obj [("a", .obj [("b", .num 7)])]), uploads := 1 } ∧
    patchRequest (.obj [("a", .obj [])]) 0 0 (.str "a.b") (some (.num 7))
      = { status := 400, error := some "Invalid path", success := false,
          data := none, written := none, uploads := 0 } := by
  refine ⟨?_, ?_, ?_⟩
  · have h := (patch_field_amended (.obj [("title", .str "old")]) "title" (.str "new")
      0 0 (by decide)).1 "title" [("title", .str "old")] rfl rfl rfl
    rw [h]
    rfl
  · have h := ((patch_field_amended (.obj [("a", .obj [("b", .num 0)])]) "a.b" (.num 7)
      0 0 (by decide)).2 ["a"] "b" [("b", .num 0)] rfl (by decide) (by decide)
      (by decide)).1 rfl rfl
    rw [h]
    rfl
  · exact ((patch_field_amended (.obj [("a", .obj [])]) "a.b" (.num 7)
      0 0 (by decide)).2 ["a"] "b" [] rfl (by decide) (by decide) (by decide)).2 rfl

lemma objGet_objSet_self : ∀ (fs : List (String × Json)) (k : String) (v : Json),
    objGet (objSet fs k v) k = some v := by
  intro fs
  induction fs with
  | nil => intro k v; simp [objSet, objGet]
  | cons kv rest ih =>
    intro k v
    obtain ⟨k1, v1⟩ := kv
    by_cases h : k1 = k
    · simp [objSet, objGet, h]
    · simp [objSet, objGet, h, ih]

lemma navigateSegs_num (n : Int) :
    ∀ segs : List String, navigateSegs (some (.num n)) segs = .ok (some (.num n)) ∨
      navigateSegs (some (.num n)) segs = .ok none := by
  intro segs
  cases segs with
  | nil => exact Or.inl rfl
  | cons seg rest =>
    right
    show navigateSegs none rest = .ok none
    exact navigateSegs_undefined rest

lemma navigateSegs_str :
    ∀ (segs : List String) (s : String),
      navigateSegs (some (.str s)) segs = .ok none ∨
      (∃ t, navigateSegs (some (.str s)) segs = .ok (some (.str t))) ∨
      (∃ m, navigateSegs (some (.str s)) segs = .ok (some (.num m))) := by
  intro segs
  induction segs with
  | nil => intro s; exact Or.inr (Or.inl ⟨s, rfl⟩)
  | cons seg rest ih =>
    intro s
    by_cases hd : isDigits seg = true
    · cases hc : s.data.get? (parseNat seg) with
      | none =>
        left
        show (getProp (.str s) seg >>= fun c => navigateSegs c rest) = .ok none
        simp only [getProp, hd, if_true, hc, Option.map_none', exceptBind_ok]
        exact navigateSegs_undefined rest
      | some c =>
        have hstep : navigateSegs (some (.str s)) (seg :: rest)
            = navigateSegs (some (.str (String.mk [c]))) rest := by
          show (getProp (.str s) seg >>= fun c => navigateSegs c rest) = _
          simp only [getProp, hd, if_true, hc, Option.map_some', exceptBind_ok]
        rw [hstep]
        exact ih (String.mk [c])
    · have hd2 : isDigits seg = false := by simpa using hd
      by_cases hl : seg = "length"
      · have hstep : navigateSegs (some (.str s)) (seg :: rest)
            = navigateSegs (some (.num s.length)) rest := by
          show (getProp (.str s) seg >>= fun c => navigateSegs c rest) = _
          simp only [getProp, hd2, Bool.false_eq_true, if_false, if_pos hl,
            exceptBind_ok]
        rcases navigateSegs_num (s.length : Int) rest with h | h
        · right; right
          exact ⟨s.length, by rw [hstep, h]⟩
        · left
          rw [hstep, h]
      · left
        have hstep : navigateSegs (some (.str s)) (seg :: rest)
            = navigateSegs none rest := by
          show (getProp (.str s) seg >>= fun c => navigateSegs c rest) = _
          simp only [getProp, hd2, Bool.false_eq_true, if_false, if_neg hl,
            exceptBind_ok]
        rw [hstep, navigateSegs_undefined rest]

lemma navigate_replace :
    ∀ (segs : List String) (doc : Json) (l m : List Json),
      navigateSegs (some doc) segs = .ok (some (.arr l)) →
      navigateSegs (some (replaceAtPath doc segs (.arr m))) segs = .ok (some (.arr m)) := by
  intro segs
  induction segs with
  | nil =>
    intro doc l m h
    have hdoc : doc = .arr l := by
      have := Except.ok.inj h
      exact Option.some.inj this
    subst hdoc
    rfl
  | cons seg rest ih =>
    intro doc l m h
    cases doc with
    | null => simp [navigateSegs, getProp, exceptBind_error] at h
    | num n =>
      exfalso
      have : navigateSegs none rest = .ok (some (.arr l)) := h
      rw [navigateSegs_undefined rest] at this
      simp at this
    | bool b =>
      exfalso
      have : navigateSegs none rest = .ok (some (.arr l)) := h
      rw [navigateSegs_undefined rest] at this
      simp at this
    | str s =>
      exfalso
      rcases navigateSegs_str (seg :: rest) s with hc | ⟨t, hc⟩ | ⟨mm, hc⟩ <;>
        rw [hc] at h <;> simp at h
    | obj fs =>
      have hstep : navigateSegs (some (.obj fs)) (seg :: rest)
          = navigateSegs (objGet fs (segKey seg)) rest := rfl
      rw [hstep] at h
      cases hg : objGet fs (segKey seg) with
      | none =>
        exfalso
        rw [hg, navigateSegs_undefined rest] at h
        simp at h
      | some child =>
        rw [hg] at h
        have hrepl : replaceAtPath (.obj fs) (seg :: rest) (.arr m)
            = .obj (objSet fs (segKey seg) (replaceAtPath child rest (.arr m))) := by
          simp [replaceAtPath, hg]
        rw [hrepl]
        have hnav2 : navigateSegs
            (some (.obj (objSet fs (segKey seg) (replaceAtPath child rest (.arr m)))))
            (seg :: rest)
            = navigateSegs (some (replaceAtPath child rest (.arr m))) rest := by
          show navigateSegs (objGet (objSet fs (segKey seg) _) (segKey seg)) rest = _
          rw [objGet_objSet_self]
        rw [hnav2]
        exact ih child l m h
    | arr l2 =>
      by_cases hd : isDigits seg = true
      · have hstep : navigateSegs (some (.arr l2)) (seg :: rest)
            = navigateSegs (l2.get? (parseNat seg)) rest := by
          simp [navigateSegs, getProp, hd, exceptBind_ok]
        rw [hstep] at h
        cases hg : l2.get? (parseNat seg) with
        | none =>
          exfalso
          rw [hg, navigateSegs_undefined rest] at h
          simp at h
        | some child =>
          rw [hg] at h
          have hlt : parseNat seg < l2.length := by
            by_contra hge
            rw [List.get?_eq_none.mpr (by omega)] at hg
            exact Option.noConfusion hg
          have hg2 : l2[parseNat seg]? = some child := by
            rw [← List.get?_eq_getElem?]
            exact hg
          have hrepl : replaceAtPath (.arr l2) (seg :: rest) (.arr m)
              = .arr (l2.set (parseNat seg) (replaceAtPath child rest (.arr m))) := by
            simp [replaceAtPath, hd, hg, hg2]
          rw [hrepl]
          have hget : (l2.set (parseNat seg) (replaceAtPath child rest (.arr m))).get?
              (parseNat seg) = some (replaceAtPath child rest (.arr m)) := by
            rw [List.get?_eq_getElem?]
            exact List.getElem?_set_eq_of_lt _ hlt
          have hnav2 : navigateSegs
              (some (.arr (l2.set (parseNat seg) (replaceAtPath child rest (.arr m)))))
              (seg :: rest)
              = navigateSegs (some (replaceAtPath child rest (.arr m))) rest := by
            show (getProp _ seg >>= fun c => navigateSegs c rest) = _
            simp only [getProp, hd, if_true, hget, exceptBind_ok]
          rw [hnav2]
          exact ih child l m h
      · exfalso
        have hd' : isDigits seg = false := by simpa using hd
        by_cases hl : seg = "length"
        · have hstep : navigateSegs (some (.arr l2)) (seg :: rest)
              = navigateSegs (some (.num l2.length)) rest := by
            show (getProp (.arr l2) seg >>= fun c => navigateSegs c rest) = _
            simp only [getProp, hd', Bool.false_eq_true, if_false, if_pos hl,
              exceptBind_ok]
          rw [hstep] at h
          rcases navigateSegs_num (l2.length : Int) rest with hc | hc <;>
            rw [hc] at h <;> simp at h
        · have hstep : navigateSegs (some (.arr l2)) (seg :: rest)
              = navigateSegs none rest := by
            show (getProp (.arr l2) seg >>= fun c => navigateSegs c rest) = _
            simp only [getProp, hd', Bool.false_eq_true, if_false, if_neg hl,
              exceptBind_ok]
          rw [hstep, navigateSegs_undefined rest] at h
          simp at h

lemma postMutate_appendOk
    (doc : Json) (p : String) (v : Json) (cur : List Json)
    (hp : p ≠ "") (hW : ∀ t, adjustWeeks p t v = .ok v)
    (hnav : navigateSegs (some doc) (jsSplitDot p) = .ok (some (.arr cur))) :
    postMutate doc (.str p) (some v)
      = .ok (.mutated (replaceAtPath doc (jsSplitDot p) (.arr (cur ++ [v])))) := by
  have htr : Json.truthy (.str p) = true := by simp [Json.truthy, hp]
  simp only [postMutate, htr, Bool.not_true, Bool.false_eq_true, if_false, jsSplit,
    exceptBind_ok]
  rw [hnav, exceptBind_ok]
  show (adjustWeeks (strVal (.str p)) cur v >>= _) = _
  rw [show strVal (.str p) = p from rfl, hW cur, exceptBind_ok]
  rfl

lemma finishRequest_written_none (m : Except JsErr MutateOut) (rv sv : Nat)
    (h : rv ≠ sv) : (finishRequest m rv sv).written = none := by
  match m with
  | .error _ => rfl
  | .ok (.reject st msg) => rfl
  | .ok (.mutated d) => simp [finishRequest, if_neg h]

lemma stepOp_written_none
    (maxR : Nat) (path value : Json) (st : Store) (o : OpState)
    (snap : Json) (etag : Nat)
    (hph : o.phase = .toWrite snap etag)
    (hw : (postRequest snap etag st.ver path (some value)).written = none) :
    (stepOp maxR path value st o).1 = st ∧
    ((stepOp maxR path value st o).2.phase = .toRead ∨
      (stepOp maxR path value st o).2.phase = .doneFail) := by
  simp only [stepOp, hph]
  by_cases h409 : (postRequest snap etag st.ver path (some value)).status = 409
  · simp only [h409, if_pos rfl]
    by_cases hc : o.conflicts + 1 < maxR
    · simp [hc]
    · simp [hc]
  · simp only [if_neg h409]
    by_cases h200 : (postRequest snap etag st.ver path (some value)).status = 200
    · simp only [h200, if_pos rfl, hw]
      exact ⟨rfl, Or.inr rfl⟩
    · simp [h200]

lemma stepOp_commit
    (maxR : Nat) (path value : Json) (st : Store) (o : OpState)
    (snap : Json) (nd : Json)
    (hph : o.phase = .toWrite snap st.ver)
    (hm : postMutate snap path (some value) = .ok (.mutated nd)) :
    stepOp maxR path value st o
      = ({ doc := nd, ver := st.ver + 1 }, { o with phase := .doneOk }) := by
  have hres : postRequest snap st.ver st.ver path (some value)
      = { status := 200, error := none, success := true,
          data := some nd, written := some nd, uploads := 1 } := by
    unfold postRequest
    rw [hm]
    simp [finishRequest]
  simp only [stepOp, hph, hres]
  rfl

lemma step_preserve_A
    (maxR : Nat) (p : String) (vA vB : Json) (l0 : List Json)
    (hp : p ≠ "")
    (hWA : ∀ t, adjustWeeks p t vA = .ok vA)
    (s : Sys) (hinv : SysInv (jsSplitDot p) l0 vA vB s) :
    SysInv (jsSplitDot p) l0 vA vB (sysStep maxR (.str p) vA vB s true) := by
  obtain ⟨⟨w, hw, hnav⟩, hver, hpa, hpb⟩ := hinv
  have hstep : sysStep maxR (.str p) vA vB s true
      = { s with store := (stepOp maxR (.str p) vA s.store s.opA).1,
                 opA := (stepOp maxR (.str p) vA s.store s.opA).2 } := by
    simp [sysStep]
  cases hph : s.opA.phase with
  | toRead =>
    have hso : stepOp maxR (.str p) vA s.store s.opA
        = (s.store, { s.opA with phase := .toWrite s.store.doc s.store.ver }) := by
      simp [stepOp, hph]
    rw [hstep, hso]
    rw [hph] at hw hver
    refine ⟨⟨w, hw, hnav⟩, hver, ?_, hpb⟩
    intro d rv hq
    have hq2 := OpPhase.toWrite.inj hq
    exact ⟨le_of_eq hq2.2.symm, fun _ => hq2.1.symm⟩
  | toWrite snap etag =>
    obtain ⟨hrv_le, hrv_eq⟩ := hpa snap etag hph
    by_cases hv : etag = s.store.ver
    · have hsnap : snap = s.store.doc := hrv_eq hv
      have hm : postMutate snap (.str p) (some vA)
          = .ok (.mutated (replaceAtPath s.store.doc (jsSplitDot p)
              (.arr ((l0 ++ w) ++ [vA])))) := by
        rw [hsnap]
        exact postMutate_appendOk s.store.doc p vA (l0 ++ w) hp hWA hnav
      rw [hv] at hph
      have hso := stepOp_commit maxR (.str p) vA s.store s.opA snap
        (replaceAtPath s.store.doc (jsSplitDot p) (.arr ((l0 ++ w) ++ [vA]))) hph hm
      rw [hstep, hso]
      rw [hph] at hw hver
      have hA0 : isOkPhase (OpPhase.toWrite snap s.store.ver) = false := rfl
      rw [hA0] at hw hver
      have hver2 : s.store.ver = cond (isOkPhase s.opB.phase) 1 0 := by
        simpa using hver
      refine ⟨⟨w ++ [vA], ?_, ?_⟩, ?_, ?_, ?_⟩
      · show wShape (isOkPhase OpPhase.doneOk) (isOkPhase s.opB.phase) vA vB (w ++ [vA])
        rw [show isOkPhase OpPhase.doneOk = true from rfl]
        revert hw
        cases isOkPhase s.opB.phase with
        | false =>
          intro hw
          have hwl : w = [] := hw
          simp [wShape, hwl]
        | true =>
          intro hw
          have hwl : w = [vB] := hw
          exact Or.inr (by simp [hwl])
      · show navigateSegs _ _ = _
        have hh := navigate_replace (jsSplitDot p) s.store.doc (l0 ++ w)
          ((l0 ++ w) ++ [vA]) hnav
        rw [hh, List.append_assoc]
      · show s.store.ver + 1
          = (cond (isOkPhase OpPhase.doneOk) 1 0) + (cond (isOkPhase s.opB.phase) 1 0)
        rw [hver2, show isOkPhase OpPhase.doneOk = true from rfl]
        cases isOkPhase s.opB.phase <;> simp
      · intro d rv hq
        simp at hq
      · intro d rv hq
        obtain ⟨hle, _⟩ := hpb d rv hq
        refine ⟨?_, ?_⟩
        · show rv ≤ s.store.ver + 1
          omega
        · intro heq
          exact absurd (show rv = s.store.ver + 1 from heq) (by omega)
    · have hwr : (postRequest snap etag s.store.ver (.str p) (some vA)).written
          = none := by
        unfold postRequest
        exact finishRequest_written_none _ _ _ hv
      obtain ⟨hst, hph2⟩ := stepOp_written_none maxR (.str p) vA s.store s.opA snap
        etag hph hwr
      rw [hstep]
      rw [hph] at hw hver
      have hA0 : isOkPhase (OpPhase.toWrite snap etag) = false := rfl
      rw [hA0] at hw hver
      have hA1 : isOkPhase (stepOp maxR (.str p) vA s.store s.opA).2.phase = false := by
        rcases hph2 with h | h <;> rw [h] <;> rfl
      refine ⟨⟨w, ?_, ?_⟩, ?_, ?_, ?_⟩
      · show wShape (isOkPhase (stepOp maxR (.str p) vA s.store s.opA).2.phase)
          (isOkPhase s.opB.phase) vA vB w
        rw [hA1]
        exact hw
      · show navigateSegs (some (stepOp maxR (.str p) vA s.store s.opA).1.doc) _ = _
        rw [hst]
        exact hnav
      · show (stepOp maxR (.str p) vA s.store s.opA).1.ver
          = (cond (isOkPhase (stepOp maxR (.str p) vA s.store s.opA).2.phase) 1 0)
            + (cond (isOkPhase s.opB.phase) 1 0)
        rw [hst, hA1]
        simpa using hver
      · intro d rv hq
        rcases hph2 with h | h <;> rw [h] at hq <;> simp at hq
      · intro d rv hq
        obtain ⟨hle, heq⟩ := hpb d rv hq
        rw [hst]
        exact ⟨hle, heq⟩
  | doneOk =>
    have hso : stepOp maxR (.str p) vA s.store s.opA = (s.store, s.opA) := by
      simp [stepOp, hph]
    rw [hstep, hso]
    exact ⟨⟨w, hw, hnav⟩, hver, hpa, hpb⟩
  | doneFail =>
    have hso : stepOp maxR (.str p) vA s.store s.opA = (s.store, s.opA) := by
      simp [stepOp, hph]
    rw [hstep, hso]
    exact ⟨⟨w, hw, hnav⟩, hver, hpa, hpb⟩

lemma wShape_swap {aOk bOk : Bool} {vA vB : Json} {w : List Json}
    (h : wShape aOk bOk vA vB w) : wShape bOk aOk vB vA w := by
  cases aOk with
  | false =>
    cases bOk with
    | false => exact h
    | true => exact h
  | true =>
    cases bOk with
    | false => exact h
    | true =>
      rcases (h : w = [vA, vB] ∨ w = [vB, vA]) with h1 | h1
      · exact Or.inr h1
      · exact Or.inl h1

lemma sysInv_swap {segs : List String} {l0 : List Json} {vA vB : Json} {s : Sys}
    (h : SysInv segs l0 vA vB s) : SysInv segs l0 vB vA (sysSwap s) := by
  obtain ⟨⟨w, hw, hnav⟩, hver, hpa, hpb⟩ := h
  exact ⟨⟨w, wShape_swap hw, hnav⟩, hver.trans (Nat.add_comm _ _), hpb, hpa⟩

lemma sysStep_false_swap (maxR : Nat) (path vA vB : Json) (s : Sys) :
    sysStep maxR path vA vB s false
      = sysSwap (sysStep maxR path vB vA (sysSwap s) true) := rfl

lemma step_preserve
    (maxR : Nat) (p : String) (vA vB : Json) (l0 : List Json)
    (hp : p ≠ "")
    (hWA : ∀ t, adjustWeeks p t vA = .ok vA)
    (hWB : ∀ t, adjustWeeks p t vB = .ok vB)
    (s : Sys) (hinv : SysInv (jsSplitDot p) l0 vA vB s) (who : Bool) :
    SysInv (jsSplitDot p) l0 vA vB (sysStep maxR (.str p) vA vB s who) := by
  cases who with
  | true => exact step_preserve_A maxR p vA vB l0 hp hWA s hinv
  | false =>
    rw [sysStep_false_swap]
    exact sysInv_swap
      (step_preserve_A maxR p vB vA l0 hp hWB (sysSwap s) (sysInv_swap hinv))

lemma run_preserve
    (maxR : Nat) (p : String) (vA vB : Json) (l0 : List Json)
    (hp : p ≠ "")
    (hWA : ∀ t, adjustWeeks p t vA = .ok vA)
    (hWB : ∀ t, adjustWeeks p t vB = .ok vB) :
    ∀ (sched : List Bool) (s : Sys), SysInv (jsSplitDot p) l0 vA vB s →
      SysInv (jsSplitDot p) l0 vA vB (sysRun maxR (.str p) vA vB s sched) := by
  intro sched
  induction sched with
  | nil => intro s h; exact h
  | cons who rest ih =>
    intro s h
    exact ih _ (step_preserve maxR p vA vB l0 hp hWA hWB s h who)

lemma sysInv_init
    (doc0 : Json) (maxR : Nat) (segs : List String) (l0 : List Json) (vA vB : Json)
    (hnav : navigateSegs (some doc0) segs = .ok (some (.arr l0))) :
    SysInv segs l0 vA vB (initSys doc0 maxR) := by
  have hok : isOkPhase (initOp maxR).phase = false := by
    unfold initOp
    by_cases h : maxR = 0 <;> simp [h, isOkPhase]
  refine ⟨⟨[], ?_, by simpa using hnav⟩, ?_, ?_, ?_⟩
  · show wShape (isOkPhase (initOp maxR).phase) (isOkPhase (initOp maxR).phase) vA vB []
    rw [hok]
    rfl
  · show (0 : Nat) = _
    rw [show (initSys doc0 maxR).opA.phase = (initOp maxR).phase from rfl,
      show (initSys doc0 maxR).opB.phase = (initOp maxR).phase from rfl, hok]
    rfl
  · intro d rv hq
    unfold initSys initOp at hq
    by_cases h : maxR = 0 <;> simp [h] at hq
  · intro d rv hq
    unfold initSys initOp at hq
    by_cases h : maxR = 0 <;> simp [h] at hq

/-- C1: two concurrent Append operations on the same (non-`weeks`-adjusted)
array path of the same document, with distinct values not already present,
never lose each other's write: whatever the interleaving of their
server-side downloads and conditional uploads and however many internal
retries each needs, once both client retry loops have completed
successfully the stored array contains both appended values exactly
once. -/
theorem concurrent_appends_no_lost_update
    (doc0 : Json) (p : String) (vA vB : Json) (l0 : List Json) (maxR : Nat)
    (sched : List Bool)
    (hp : p ≠ "")
    (hnav : navigateSegs (some doc0) (jsSplitDot p) = .ok (some (.arr l0)))
    (hWA : ∀ t, adjustWeeks p t vA = .ok vA)
    (hWB : ∀ t, adjustWeeks p t vB = .ok vB)
    (hne : vA ≠ vB) (hA0 : vA ∉ l0) (hB0 : vB ∉ l0)
    (hdoneA : (sysRun maxR (.str p) vA vB (initSys doc0 maxR) sched).opA.phase
      = .doneOk)
    (hdoneB : (sysRun maxR (.str p) vA vB (initSys doc0 maxR) sched).opB.phase
      = .doneOk) :
    ∃ l, navigateSegs
        (some (sysRun maxR (.str p) vA vB (initSys doc0 maxR) sched).store.doc)
        (jsSplitDot p) = .ok (some (.arr l)) ∧
      l.count vA = 1 ∧ l.count vB = 1 := by
  have hinv := run_preserve maxR p vA vB l0 hp hWA hWB sched (initSys doc0 maxR)
    (sysInv_init doc0 maxR (jsSplitDot p) l0 vA vB hnav)
  obtain ⟨⟨w, hw, hnavf⟩, _, _, _⟩ := hinv
  rw [hdoneA, hdoneB] at hw
  have hw2 : w = [vA, vB] ∨ w = [vB, vA] := hw
  have hcA : l0.count vA = 0 := List.count_eq_zero.mpr hA0
  have hcB : l0.count vB = 0 := List.count_eq_zero.mpr hB0
  have hcount : (l0 ++ w).count vA = 1 ∧ (l0 ++ w).count vB = 1 := by
    rcases hw2 with h | h <;> subst h <;> constructor <;>
      simp [List.count_append, List.count_cons, hcA, hcB, beq_iff_eq, hne, Ne.symm hne]
  exact ⟨l0 ++ w, hnavf, hcount.1, hcount.2⟩

theorem concurrent_appends_no_lost_update_witness :
    (sysRun 3 (.str "r") (.str "x") (.str "y") (initSys (.obj [("r", .arr [])]) 3)
        [true, false, true, false, false, false]).opA.phase = .doneOk ∧
    (sysRun 3 (.str "r") (.str "x") (.str "y") (initSys (.obj [("r", .arr [])]) 3)
        [true, false, true, false, false, false]).opB.phase = .doneOk ∧
    ∃ l, navigateSegs
        (some (sysRun 3 (.str "r") (.str "x") (.str "y")
          (initSys (.obj [("r", .arr [])]) 3)
          [true, false, true, false, false, false]).store.doc)
        (jsSplitDot "r") = .ok (some (.arr l)) ∧
      l.count (.str "x") = 1 ∧ l.count (.str "y") = 1 := by
  refine ⟨by decide, by decide, ?_⟩
  exact concurrent_appends_no_lost_update (.obj [("r", .arr [])]) "r"
    (.str "x") (.str "y") [] 3 [true, false, true, false, false, false]
    (by decide) (by decide) (fun t => rfl) (fun t => rfl)
    (by decide) (by decide) (by decide) (by decide) (by decide)
